import Mathlib

/-!
Shallow embedding of the conversation context engine and session
persistence layer of the ollama-cli repository
(src/ollama_cli/chat_engine.py, src/ollama_cli/utils.py,
src/ollama_cli/security.py, src/ollama_cli/session_store.py),
together with theorems settling the frozen claims about them.

Modelling conventions:
* Python `str` is modelled by `String`; `str.startswith`/`in`/`endswith`
  are modelled as character-list tests on `String.data`.
* Python machine-independent `int` is modelled by `Int` (config fields,
  token counters) or `Nat` (lengths, indices) as appropriate.
* Message dicts are modelled by a `Message` structure whose `content`
  is a tagged union (`Content`): a plain string, a multimodal list of
  attachment parts, or any other (non-string, non-list) value.
* Effectful library calls that are external to the repository (the
  regex engine used by `re.sub`, Fernet encryption, JSON serialization,
  the filesystem and the HTTP backend) are abstracted: regex masking is
  a parameter `subst`, encryption wraps a payload symbolically, the
  session directory is an association list from file names to payloads.
-/

namespace OllamaCli

/-- Character-list test: does the second list start with the first?
Models Python `str.startswith` via `String.data`. -/
def listStartsWith : List Char → List Char → Bool
  | [], _ => true
  | _ :: _, [] => false
  | a :: as, b :: bs => a == b && listStartsWith as bs

/-- Python `needle in hay` (substring test) on character lists. -/
def listHasSub (hay needle : List Char) : Bool :=
  if listStartsWith needle hay then true
  else
    match hay with
    | [] => false
    | _ :: t => listHasSub t needle

/-- `hay.startswith(pre)` for strings. -/
def strStartsWith (hay pre : String) : Bool :=
  listStartsWith pre.data hay.data

/-- `needle in hay` for strings. -/
def strHasSub (hay needle : String) : Bool :=
  listHasSub hay.data needle.data

/-- First index whose element satisfies `p` (models the enumerate-based
index searches of the Python source). -/
def findIdxP {α : Type} (p : α → Bool) : List α → Option Nat
  | [] => none
  | x :: rest => if p x then some 0 else (findIdxP p rest).map (fun i => i + 1)

/-- Python `list.insert(i, x)`: clamps the index into range. -/
def insertAt {α : Type} (l : List α) (i : Nat) (x : α) : List α :=
  l.take i ++ x :: l.drop i

/-- Lexicographic strict order on character lists by codepoint: Python
string `<`. -/
def listLtChars : List Char → List Char → Bool
  | _, [] => false
  | [], _ :: _ => true
  | a :: as, b :: bs =>
      if a.toNat < b.toNat then true
      else if b.toNat < a.toNat then false
      else listLtChars as bs

/-- Python `a < b` on strings. -/
def strLt (a b : String) : Bool := listLtChars a.data b.data

/-- Python `a <= b` on strings. -/
def strLe (a b : String) : Bool := !strLt b a

/-- Insertion step of a stable insertion sort: place `x` before the first
element `y` with `le x y`. -/
def insertLe {α : Type} (le : α → α → Bool) (x : α) : List α → List α
  | [] => [x]
  | y :: ys => if le x y then x :: y :: ys else y :: insertLe le x ys

/-- Stable insertion sort (models Python's stable `list.sort`). -/
def sortLe {α : Type} (le : α → α → Bool) (l : List α) : List α :=
  l.foldr (insertLe le) []

/- ------------------------------------------------------------------
   Data model: messages (src/ollama_cli/chat_engine.py, models.py)
   ------------------------------------------------------------------ -/

/-- The `content` value of a message dict: a plain string, a multimodal
list of attachment parts, or any other (non-string, non-list) value. -/
inductive Content : Type
  | text (s : String)
  | parts (ps : List String)
  | other
deriving DecidableEq, Repr

/-- A message dict `{role, content, images?}`.  `images` models the
optional attachments key added by `send_user_message`. -/
structure Message : Type where
  role : String := ""
  content : Content := .text ""
  images : Option (List String) := none
deriving DecidableEq, Repr

instance : Inhabited Message := ⟨{}⟩

/-- `TokenStats` dataclass / the `token_stats` dict of a session. -/
structure TokenStats : Type where
  prompt_tokens : Int := 0
  completion_tokens : Int := 0
  total_tokens : Int := 0
deriving DecidableEq, Repr

/-- The configuration fields of `ConfigModel` read by the context
engine (src/ollama_cli/models.py). -/
structure EngineConfig : Type where
  context_token_budget : Int := 8192
  context_keep_last : Int := 6
  context_autosummarize : Bool := true
deriving DecidableEq, Repr

/-- The conversation state owned by `ChatEngine`
(src/ollama_cli/chat_engine.py, `__init__`). -/
structure EngineState : Type where
  messages : List Message := []
  summary : String := ""
  base_system_prompt : String := ""
  profile_prompt : String := ""
  current_persona : Option String := none
  current_temperature : Option Int := none
  model : Option String := none
  token_stats : TokenStats := {}
deriving DecidableEq, Repr

/-- `SUMMARY_PREFIX` constant of chat_engine.py. -/
def SUMMARY_MARKER : String := "## Konusma Ozeti"

/-- `DEFAULT_SUMMARY_KEEP` constant of chat_engine.py. -/
def DEFAULT_SUMMARY_KEEP : Nat := 6

/-- The `prompt` fields of the `PERSONAS` table of chat_engine.py
(names and icons are omitted: no verified operation reads them;
the apostrophe in the developer prompt is written as an escape). -/
def personaPrompt (name : String) : Option String :=
  if name = "developer" then
    some "Sen deneyimli bir yazilim gelistiricisin. Kod yazarken best practice'leri uygula, temiz ve okunabilir kod yaz. Hatalari detayli acikla ve cozum oner."
  else if name = "teacher" then
    some "Sen sabirli ve anlayisli bir ogretmensin. Konulari basit ve anlasilir sekilde acikla. Ornekler ver, adim adim ilerle. Ogrencinin seviyesine gore uyarla."
  else if name = "assistant" then
    some "Sen yardimci ve verimli bir asistansin. Kisa, oz ve dogrudan yanitlar ver. Gereksiz detaylardan kacin."
  else if name = "creative" then
    some "Sen yaratici bir yazarsin. Ozgun fikirler uret, ilgi cekici hikayeler anlat, siir ve metinler yaz. Hayal gucunu kullan."
  else if name = "analyst" then
    some "Sen detayci bir analistsin. Verileri incele, karsilastir, arti ve eksi leri listele. Objektif ve mantikli degerlendirmeler yap."
  else if name = "debug" then
    some "Sen bir debug uzmanisin. Hatalari bul, nedenlerini acikla, cozum oner. Sistematik dusun, olasi tum senaryolari degerlendir."
  else if name = "turkish" then
    some "Sen Turkce konusan yardimci bir asistansin. Her zaman Turkce yanit ver. Teknik terimleri de Turkce acikla."
  else none

/-- Does a content value start with the summary marker?
(`isinstance(content, str) and content.startswith(SUMMARY_PREFIX)`). -/
def contentStartsMarker : Content → Bool
  | .text s => strStartsWith s SUMMARY_MARKER
  | _ => false

/-- `ChatEngine._is_summary_message` (checks only the content). -/
def is_summary_message (m : Message) : Bool :=
  contentStartsMarker m.content

/-- The predicate of `ChatEngine._find_summary_index`. -/
def isSummaryEntry (m : Message) : Bool :=
  m.role == "system" && is_summary_message m

/-- The predicate of `ChatEngine._find_base_system_index`. -/
def isBaseEntry (m : Message) : Bool :=
  m.role == "system" && !is_summary_message m

/-- `ChatEngine._find_summary_index`. -/
def find_summary_index (msgs : List Message) : Option Nat :=
  findIdxP isSummaryEntry msgs

/-- `ChatEngine._find_base_system_index`. -/
def find_base_system_index (msgs : List Message) : Option Nat :=
  findIdxP isBaseEntry msgs

/-- `messages[i]["content"] = c` (in-place content assignment). -/
def setContentAt : List Message → Nat → Content → List Message
  | [], _, _ => []
  | m :: rest, 0, c => { m with content := c } :: rest
  | m :: rest, n + 1, c => m :: setContentAt rest n c

/-- `ChatEngine.build_system_prompt`. -/
def build_system_prompt (st : EngineState) : String :=
  let base := st.base_system_prompt
  let profile_prompt := st.profile_prompt
  let persona_prompt :=
    match st.current_persona with
    | some p => if p = "" then "" else (personaPrompt p).getD ""
    | none => ""
  String.intercalate "\n\n"
    (List.filter (fun part => part != "") [base, profile_prompt, persona_prompt])

/-- `ChatEngine.update_summary_message`. -/
def update_summary_message (st : EngineState) : EngineState :=
  let summary_idx := find_summary_index st.messages
  if st.summary = "" then
    match summary_idx with
    | some i => { st with messages := st.messages.eraseIdx i }
    | none => st
  else
    let content := SUMMARY_MARKER ++ "\n" ++ st.summary
    match summary_idx with
    | some i =>
        let msgs1 := setContentAt st.messages i (.text content)
        match find_base_system_index msgs1 with
        | some b =>
            if i < b then
              let summary_msg := msgs1.getD i default
              let msgs2 := msgs1.eraseIdx i
              let b2 := if i < b then b - 1 else b
              { st with messages := insertAt msgs2 (b2 + 1) summary_msg }
            else { st with messages := msgs1 }
        | none => { st with messages := msgs1 }
    | none =>
        let base_idx := find_base_system_index st.messages
        let insert_at := if base_idx = some 0 then 1 else 0
        { st with
          messages := insertAt st.messages insert_at
            { role := "system", content := .text content } }

/-- `ChatEngine.update_system_message`. -/
def update_system_message (st : EngineState) : EngineState :=
  let combined := build_system_prompt st
  let base_idx := find_base_system_index st.messages
  let st1 :=
    if combined ≠ "" then
      match base_idx with
      | some i => { st with messages := setContentAt st.messages i (.text combined) }
      | none =>
          { st with
            messages := { role := "system", content := .text combined } :: st.messages }
    else
      match base_idx with
      | some i => { st with messages := st.messages.eraseIdx i }
      | none => st
  update_summary_message st1

/-- `estimate_tokens` (src/ollama_cli/utils.py). -/
def estimate_tokens (text : String) : Nat :=
  if text = "" then 0 else max 1 (text.length / 4)

/-- `estimate_message_tokens` (src/ollama_cli/utils.py). -/
def estimate_message_tokens (m : Message) : Nat :=
  match m.content with
  | .parts _ => 256
  | .text s => estimate_tokens s
  | .other => 0

/-- `ChatEngine.estimate_context_tokens`. -/
def estimate_context_tokens (msgs : List Message) : Nat :=
  (msgs.map estimate_message_tokens).sum

/-- `ChatEngine.maybe_summarize`.  The summarization procedure performs
an HTTP call; it is abstracted by `delegate`, the success value the
procedure would report.  The first component of the result records
whether the call delegated to the summarization procedure, the second
is the returned boolean. -/
def maybe_summarize (cfg : EngineConfig) (st : EngineState)
    (force : Bool) (delegate : Bool) : Bool × Bool :=
  if !force && !cfg.context_autosummarize then (false, false)
  else if cfg.context_token_budget ≤ 0 then (false, false)
  else if !force &&
      ((estimate_context_tokens st.messages : Int) ≤ cfg.context_token_budget) then
    (false, false)
  else (true, delegate)

/-- `keep_last = max(1, self.config.context_keep_last or DEFAULT_SUMMARY_KEEP)`
(Python `or` substitutes the default when the configured value is 0). -/
def keepLastOf (cfg : EngineConfig) : Nat :=
  (max 1 (if cfg.context_keep_last = 0 then (DEFAULT_SUMMARY_KEEP : Int)
          else cfg.context_keep_last)).toNat

/-- `ChatEngine._split_messages_for_summary`. -/
def split_messages_for_summary (cfg : EngineConfig) (msgs : List Message) :
    List Message × List Message :=
  let conversation := msgs.filter (fun m => m.role != "system")
  let keep_last := keepLastOf cfg
  if conversation.length ≤ keep_last then ([], conversation)
  else
    (conversation.take (conversation.length - keep_last),
     conversation.drop (conversation.length - keep_last))

/- ------------------------------------------------------------------
   get_model_prompt (src/ollama_cli/utils.py) and init_conversation
   ------------------------------------------------------------------ -/

/-- `DEFAULT_PROMPT.system_prompt` (src/ollama_cli/models.py). -/
def DEFAULT_SYSTEM_PROMPT : String :=
  "Sen yardimci bir AI asistansin. Turkce yanit ver."

/-- The prompts dictionary: pairs of key and the entry's optional
`system_prompt` field (other entry fields are unused by the engine). -/
def Prompts : Type := List (String × Option String)

/-- `get_model_prompt` (src/ollama_cli/utils.py), returning the chosen
entry's `system_prompt` field (`.get("system_prompt", "")` is applied by
the caller via `Option.getD`). -/
def get_model_prompt (model_name : String) (prompts : Prompts) : Option String :=
  let model_base := ((model_name.splitOn ":").headD "").toLower
  let matches_key := fun (kv : String × Option String) =>
    !strStartsWith kv.1 "_" &&
      (kv.1.toLower == model_base || strHasSub model_base kv.1.toLower ||
        strHasSub kv.1.toLower model_base)
  match List.find? matches_key prompts with
  | some kv => kv.2
  | none =>
      match List.find? (fun kv => kv.1 == "_default") prompts with
      | some kv => kv.2
      | none => some DEFAULT_SYSTEM_PROMPT

/-- The fields set by the external profile resolver callback
(`apply_profiles_callback` mutates the engine's persona, profile prompt
and temperature; it is external to the engine per the spec). -/
structure ProfileUpdate : Type where
  profile_prompt : String := ""
  current_persona : Option String := none
  current_temperature : Option Int := none
deriving DecidableEq, Repr

/-- `ChatEngine.init_conversation`.  The returned state's `messages`
field is the transcript the Python method returns. -/
def init_conversation (st : EngineState) (model_name : String)
    (cb : Option (String → ProfileUpdate)) (prompts : Prompts) : EngineState :=
  let st1 := { st with summary := "", model := some model_name }
  let st2 :=
    match cb with
    | some f =>
        let u := f model_name
        { st1 with
          profile_prompt := u.profile_prompt
          current_persona := u.current_persona
          current_temperature := u.current_temperature }
    | none => st1
  let st3 := { st2 with
    base_system_prompt := (get_model_prompt model_name prompts).getD "" }
  let combined := build_system_prompt st3
  let msgs :=
    if combined ≠ "" then [{ role := "system", content := .text combined }]
    else ([] : List Message)
  { st3 with messages := msgs }

/- ------------------------------------------------------------------
   Codec: masking and encryption (src/ollama_cli/security.py)
   ------------------------------------------------------------------ -/

/-- `mask_sensitive_text`: folds `re.sub(pattern, "[REDACTED]", ...)`
over the configured patterns.  The regex engine is external; a single
substitution pass is abstracted as the parameter `subst` (pattern,
text to redacted text). -/
def mask_sensitive_text (subst : String → String → String)
    (patterns : List String) (text : String) : String :=
  patterns.foldl (fun masked pattern => subst pattern masked) text

/-- `mask_messages`: copies each message dict and redacts its content
when (and only when) the content is a string. -/
def mask_messages (subst : String → String → String)
    (patterns : List String) (messages : List Message) : List Message :=
  messages.map (fun msg =>
    match msg.content with
    | .text s => { msg with content := .text (mask_sensitive_text subst patterns s) }
    | _ => msg)

/- ------------------------------------------------------------------
   SessionStore (src/ollama_cli/session_store.py)
   ------------------------------------------------------------------ -/

/-- The `SessionMeta` pydantic model. -/
structure SessionMeta : Type where
  id : String
  title : String
  model : String
  created_at : String
  updated_at : String
  message_count : Int
  token_total : Int
  tags : List String := []
  encrypted : Bool := false
  path : String
  summary_excerpt : String := ""
deriving DecidableEq, Repr

/-- The `SessionData` pydantic model (the per-session file payload). -/
structure SessionDataM : Type where
  meta : SessionMeta
  messages : List Message
  token_stats : TokenStats
  summary : String := ""
deriving DecidableEq, Repr

/-- A session file's content: the JSON serialization of a `SessionData`
is abstracted as the data itself, and Fernet encryption of the
serialized text as a symbolic wrapper carrying the key.  Decryption
with the same key recovers the payload; with a different key, or on a
payload that is not ciphertext, it fails (Fernet is authenticated). -/
inductive FileContent : Type
  | plain (data : SessionDataM)
  | encrypted (key : String) (data : SessionDataM)
deriving DecidableEq, Repr

/-- The store's durable state: the metadata index (`sessions` list of
the index file) and the session directory (file name to content). -/
structure Store : Type where
  index : List SessionMeta := []
  files : List (String × FileContent) := []
deriving DecidableEq, Repr

/-- The configuration fields of `ConfigModel` read by the session
store, plus the `OLLAMA_CLI_KEY` environment variable read by
`get_encryption_key` (modelled as a field). -/
structure StoreConfig : Type where
  mask_sensitive : Bool := false
  mask_patterns : List String := []
  encryption_enabled : Bool := false
  encryption_key : Option String := none
  env_key : String := ""
  session_retention_count : Int := 200
  session_retention_days : Int := 0
deriving DecidableEq, Repr

/-- Errors surfaced by the store: `SecurityError` with its message, or
a JSON parse failure. -/
inductive StoreError : Type
  | security (msg : String)
  | parse
deriving DecidableEq, Repr

/-- Python `str.strip()`: drop leading and trailing whitespace. -/
def strip_chars (s : String) : String :=
  String.mk (((s.data.dropWhile (fun c => c.isWhitespace)).reverse.dropWhile
    (fun c => c.isWhitespace)).reverse)

/-- `get_encryption_key` (src/ollama_cli/security.py). -/
def get_encryption_key (cfg : StoreConfig) : Option String :=
  let env_key := strip_chars cfg.env_key
  if env_key ≠ "" then some env_key
  else
    let key := strip_chars (cfg.encryption_key.getD "")
    if key = "" then none else some key

/-- `SessionStore._find_meta` (first index entry with the given id). -/
def find_meta (index : List SessionMeta) (session_id : String) :
    Option SessionMeta :=
  List.find? (fun item => item.id == session_id) index

/-- `SessionStore._upsert_index`: replace the first entry with the same
id, else append. -/
def upsert_meta : List SessionMeta → SessionMeta → List SessionMeta
  | [], meta => [meta]
  | item :: rest, meta =>
      if item.id == meta.id then meta :: rest else item :: upsert_meta rest meta

/-- `file_path.write_text`: overwrite the file at that name, creating
it if absent. -/
def upsert_file : List (String × FileContent) → String → FileContent →
    List (String × FileContent)
  | [], name, content => [(name, content)]
  | f :: rest, name, content =>
      if f.1 == name then (name, content) :: rest
      else f :: upsert_file rest name content

/-- Look a file up by name in the session directory. -/
def lookup_file (files : List (String × FileContent)) (name : String) :
    Option FileContent :=
  (List.find? (fun f => f.1 == name) files).map (fun f => f.2)

/-- `path.suffix == ".enc"` modelled as a suffix test on the name. -/
def ends_with_enc (name : String) : Bool :=
  listStartsWith ".enc".data.reverse name.data.reverse

/-- `sorted(set(tags))`. -/
def sorted_unique (tags : List String) : List String :=
  sortLe strLe tags.dedup

/-- `session_id = session_id or self._generate_session_id()` (Python
`or`: a missing or empty id is replaced by a freshly generated one). -/
def resolve_session_id (session_id : Option String) (gen_id : String) : String :=
  match session_id with
  | some s => if s = "" then gen_id else s
  | none => gen_id

/-- The message list actually persisted: masked when the masking
policy is enabled (`save_session`, masking step). -/
def masked_messages (subst : String → String → String) (cfg : StoreConfig)
    (messages : List Message) : List Message :=
  if cfg.mask_sensitive then mask_messages subst cfg.mask_patterns messages
  else messages

/-- A text field actually persisted: masked when the masking policy is
enabled (`save_session`, masking step for summary and title). -/
def masked_text (subst : String → String → String) (cfg : StoreConfig)
    (text : String) : String :=
  if cfg.mask_sensitive then mask_sensitive_text subst cfg.mask_patterns text
  else text

/-- The `SessionMeta(...)` construction inside `save_session` (before
the `created_at` preservation and `path` assignment). -/
def build_meta (cfg : StoreConfig) (now sid title' : String) (model : String)
    (messages' : List Message) (token_stats : TokenStats) (tags : List String)
    (summary' : String) : SessionMeta :=
  { id := sid
    title := title'
    model := model
    created_at := now
    updated_at := now
    message_count := ((messages'.filter (fun m => m.role != "system")).length : Int)
    token_total := token_stats.total_tokens
    tags := sorted_unique tags
    encrypted := cfg.encryption_enabled
    path := ""
    summary_excerpt := summary'.take 120 }

/-- `if existing: meta.created_at = existing.get("created_at", now)`. -/
def preserve_created_at (index : List SessionMeta) (sid : String)
    (meta0 : SessionMeta) : SessionMeta :=
  match find_meta index sid with
  | some existing => { meta0 with created_at := existing.created_at }
  | none => meta0

/-- `SessionStore._session_file_path` (the file name part). -/
def session_file_name (sid : String) (encrypted : Bool) : String :=
  sid ++ (if encrypted then ".json.enc" else ".json")

/-- `SessionStore.save_session`.  `now` stands for
`datetime.utcnow().isoformat()` and `gen_id` for
`_generate_session_id()` (clock and randomness are external).  The
result is the raised `SecurityError` or the returned meta together
with the store state after the writes; the key check precedes every
write, as in the source. -/
def save_session (subst : String → String → String) (cfg : StoreConfig)
    (now gen_id : String) (st : Store) (session_id : Option String)
    (title model : String) (messages : List Message)
    (token_stats : TokenStats) (tags : List String) (summary : String) :
    Except StoreError (SessionMeta × Store) :=
  let sid := resolve_session_id session_id gen_id
  let messages' := masked_messages subst cfg messages
  let summary' := masked_text subst cfg summary
  let title' := masked_text subst cfg title
  let meta1 := preserve_created_at st.index sid
    (build_meta cfg now sid title' model messages' token_stats tags summary')
  -- the payload is serialized before `meta.path` is assigned, so the
  -- stored copy of the meta carries `path = ""`
  let data : SessionDataM :=
    { meta := meta1, messages := messages', token_stats := token_stats,
      summary := summary' }
  let file_name := session_file_name sid cfg.encryption_enabled
  if cfg.encryption_enabled then
    match get_encryption_key cfg with
    | none => .error (.security "Sifreleme acik ama anahtar yok")
    | some key =>
        let meta2 := { meta1 with path := file_name }
        .ok (meta2,
          { index := upsert_meta st.index meta2,
            files := upsert_file st.files file_name (.encrypted key data) })
  else
    let meta2 := { meta1 with path := file_name }
    .ok (meta2,
      { index := upsert_meta st.index meta2,
        files := upsert_file st.files file_name (.plain data) })

/-- The store state after `save_session`: exception semantics leave the
prior state in place (the key check precedes every write in the
source). -/
def save_session_store (subst : String → String → String) (cfg : StoreConfig)
    (now gen_id : String) (st : Store) (session_id : Option String)
    (title model : String) (messages : List Message)
    (token_stats : TokenStats) (tags : List String) (summary : String) : Store :=
  match save_session subst cfg now gen_id st session_id title model messages
      token_stats tags summary with
  | .ok r => r.2
  | .error _ => st

/-- `SessionStore.load_session`. -/
def load_session (cfg : StoreConfig) (st : Store) (session_id : String) :
    Except StoreError (Option SessionDataM) :=
  match find_meta st.index session_id with
  | none => .ok none
  | some meta =>
      match lookup_file st.files meta.path with
      | none => .ok none
      | some raw =>
          if meta.encrypted || ends_with_enc meta.path then
            match get_encryption_key cfg with
            | none => .error (.security "Sifreli session icin anahtar gerekli")
            | some key =>
                match raw with
                | .encrypted k d =>
                    if k == key then .ok (some d)
                    else .error (.security "Sifre cozumleme basarisiz")
                | .plain _ => .error (.security "Sifre cozumleme basarisiz")
          else
            match raw with
            | .plain d => .ok (some d)
            | .encrypted _ _ => .error .parse

/-- `SessionStore.delete_session` (missing file is not an error). -/
def delete_session (st : Store) (session_id : String) : Bool × Store :=
  match find_meta st.index session_id with
  | none => (false, st)
  | some meta =>
      (true,
        { index := st.index.filter (fun item => item.id != session_id),
          files := st.files.filter (fun f => f.1 != meta.path) })

/-- The validated index sorted by `updated_at` descending (ISO-8601
strings compare chronologically as strings), as in `prune_sessions`. -/
def sort_by_updated_desc (sessions : List SessionMeta) : List SessionMeta :=
  sortLe (fun a b => strLe b.updated_at a.updated_at) sessions

/-- `cutoff and datetime.fromisoformat(updated_at) < cutoff` (Python
truthiness: an absent cutoff never matches). -/
def cutoff_hit (cutoff : Option String) (updated_at : String) : Bool :=
  match cutoff with
  | some c => strLt updated_at c
  | none => false

/-- The first retention pass of `prune_sessions`: sessions in
`keep_ids` are kept, otherwise sessions strictly older than the cutoff
are removed; both lists preserve the traversal order. -/
def age_pass (cutoff : Option String) (keep_ids : List String) :
    List SessionMeta → List SessionMeta × List SessionMeta
  | [] => ([], [])
  | s :: rest =>
      let r := age_pass cutoff keep_ids rest
      if s.id ∈ keep_ids then (s :: r.1, r.2)
      else if cutoff_hit cutoff s.updated_at then (r.1, s :: r.2)
      else (s :: r.1, r.2)

/-- `SessionStore.prune_sessions`.  `cutoff_val` stands for
`datetime.utcnow() - timedelta(days=retention_days)` rendered in the
same ISO format as `updated_at` (clock arithmetic is external); it is
only consulted when `session_retention_days > 0`, as in the source.
Removed sessions are deleted through `delete_session`, then the index
is overwritten with the kept list. -/
def prune_sessions (cfg : StoreConfig) (cutoff_val : String)
    (keep_ids : List String) (st : Store) : Store :=
  let sessions := sort_by_updated_desc st.index
  let cutoff := if 0 < cfg.session_retention_days then some cutoff_val else none
  let first := age_pass cutoff keep_ids sessions
  let final :=
    if 0 < cfg.session_retention_count ∧
        cfg.session_retention_count < (first.1.length : Int) then
      (first.1.take cfg.session_retention_count.toNat,
       first.2 ++ first.1.drop cfg.session_retention_count.toNat)
    else first
  let st1 := final.2.foldl (fun s sess => (delete_session s sess.id).2) st
  { st1 with index := final.1 }

/- ------------------------------------------------------------------
   Well-formedness predicates used as hypotheses of the transcript
   invariants, and spec-side definitions used for comparison
   ------------------------------------------------------------------ -/

/-- The non-system tail of a well-placed transcript: no system
messages, and no message whose content begins with the summary
marker. -/
def cleanTail (rest : List Message) : Prop :=
  ∀ m ∈ rest, m.role ≠ "system" ∧ is_summary_message m = false

/-- A transcript whose system messages form its initial segment: at
most one base system message and at most one summary message (in
either order) followed by non-system, non-marker messages.  This is
the shape produced by the engine's own operations. -/
def SysHead (msgs : List Message) : Prop :=
  ∃ rest, cleanTail rest ∧
    (msgs = rest ∨
     (∃ b, isBaseEntry b = true ∧ msgs = b :: rest) ∨
     (∃ s, isSummaryEntry s = true ∧ msgs = s :: rest) ∨
     (∃ b s, isBaseEntry b = true ∧ isSummaryEntry s = true ∧
       msgs = b :: s :: rest) ∨
     (∃ b s, isBaseEntry b = true ∧ isSummaryEntry s = true ∧
       msgs = s :: b :: rest))

/-- The normal form `update_system_message` produces: the (possibly
absent) base system message carrying the composed prompt, then the
(possibly absent) summary message, then the clean tail. -/
def Canonical (st : EngineState) : Prop :=
  ∃ rest, cleanTail rest ∧
    ((build_system_prompt st = "" ∧ st.summary = "" ∧ st.messages = rest) ∨
     (build_system_prompt st ≠ "" ∧ st.summary = "" ∧
       ∃ B, B.role = "system" ∧ B.content = .text (build_system_prompt st) ∧
         st.messages = B :: rest) ∨
     (build_system_prompt st = "" ∧ st.summary ≠ "" ∧
       ∃ S, S.role = "system" ∧
         S.content = .text (SUMMARY_MARKER ++ "\n" ++ st.summary) ∧
         st.messages = S :: rest) ∨
     (build_system_prompt st ≠ "" ∧ st.summary ≠ "" ∧
       ∃ B S, B.role = "system" ∧ B.content = .text (build_system_prompt st) ∧
         S.role = "system" ∧
         S.content = .text (SUMMARY_MARKER ++ "\n" ++ st.summary) ∧
         st.messages = B :: S :: rest))

/-- The intermediate shape produced by the base-message step of
`update_system_message`, before summary reconciliation: when the
composed prompt is empty there is no base message; when it is
non-empty there is exactly one base message carrying it; a pre-existing
summary message may sit on either side. -/
def BaseStepped (st1 : EngineState) : Prop :=
  ∃ rest, cleanTail rest ∧
    ((build_system_prompt st1 = "" ∧
       (st1.messages = rest ∨
        ∃ s, isSummaryEntry s = true ∧ st1.messages = s :: rest)) ∨
     (build_system_prompt st1 ≠ "" ∧
       ∃ B, B.role = "system" ∧ B.content = .text (build_system_prompt st1) ∧
         (st1.messages = B :: rest ∨
          (∃ s, isSummaryEntry s = true ∧ st1.messages = B :: s :: rest) ∨
          (∃ s, isSummaryEntry s = true ∧ st1.messages = s :: B :: rest))))

/-- The per-message token estimate in the words of the (amended)
specification: 256 for an attachment-bearing (multimodal list)
content, the character length divided by 4 rounded down with a minimum
of 1 for non-empty text, 0 for empty or absent content. -/
def spec_token_estimate (m : Message) : Nat :=
  match m.content with
  | .parts _ => 256
  | .text s => if s.length = 0 then 0 else max 1 (s.length / 4)
  | .other => 0

/- Concrete instances used by witnesses and counterexamples. -/

/-- A transcript with the base system message at the head and a stale
summary message sitting later but not adjacent to it. -/
def exSummaryAfterGap : EngineState :=
  { messages :=
      [{ role := "system", content := .text "Base" },
       { role := "user", content := .text "hi" },
       { role := "system", content := .text (SUMMARY_MARKER ++ "\nold") }],
    summary := "s" }

/-- A transcript whose base system message is not at index 0. -/
def exBaseNotFirst : EngineState :=
  { messages :=
      [{ role := "user", content := .text "hi" },
       { role := "system", content := .text "a" }],
    summary := "s",
    base_system_prompt := "a" }

/-- A base-at-head transcript with a non-empty summary. -/
def exBaseOnly : EngineState :=
  { messages := [{ role := "system", content := .text "Base" }],
    summary := "ozet",
    base_system_prompt := "Base" }

/-- Identity substitution used to instantiate the abstract regex pass
in witnesses (masking disabled in those scenarios). -/
def idSubst : String → String → String := fun _ text => text

/-- The save arguments of the round-trip scenario. -/
def exMerhaba : List Message := [{ role := "user", content := .text "Merhaba" }]

/-- The store produced by the round-trip scenario's save. -/
def exSavedMeta : SessionMeta :=
  { id := "gid", title := "Test", model := "demo", created_at := "now",
    updated_at := "now", message_count := 1, token_total := 2,
    tags := ["tag"], encrypted := false, path := "gid.json",
    summary_excerpt := "" }

/-- Two session metas for the pruning counterexample: `exMetaA` is the
more recently updated one. -/
def exMetaA : SessionMeta :=
  { id := "a", title := "A", model := "m", created_at := "1",
    updated_at := "2", message_count := 0, token_total := 0,
    path := "a.json" }

/-- The older session, whose id will be in `keep_ids`. -/
def exMetaB : SessionMeta :=
  { id := "b", title := "B", model := "m", created_at := "1",
    updated_at := "1", message_count := 0, token_total := 0,
    path := "b.json" }

/-- A store holding both sessions with their files on disk. -/
def exPruneStore : Store :=
  { index := [exMetaA, exMetaB],
    files :=
      [("a.json", .plain { meta := exMetaA, messages := [], token_stats := {} }),
       ("b.json", .plain { meta := exMetaB, messages := [], token_stats := {} })] }

/-- Three sessions for the retention-count scenario. -/
def exMetaC : SessionMeta :=
  { id := "c", title := "C", model := "m", created_at := "1",
    updated_at := "3", message_count := 0, token_total := 0,
    path := "c.json" }

/-- A store holding the three sessions of the retention scenario. -/
def exPruneStore3 : Store :=
  { index := [exMetaA, exMetaB, exMetaC],
    files :=
      [("a.json", .plain { meta := exMetaA, messages := [], token_stats := {} }),
       ("b.json", .plain { meta := exMetaB, messages := [], token_stats := {} }),
       ("c.json", .plain { meta := exMetaC, messages := [], token_stats := {} })] }

/-- An encrypted index entry with its ciphertext file, for the
load-without-key scenario. -/
def exEncMeta : SessionMeta :=
  { id := "e", title := "E", model := "m", created_at := "1",
    updated_at := "1", message_count := 0, token_total := 0,
    encrypted := true, path := "e.json.enc" }

/-- A store holding the encrypted session. -/
def exEncStore : Store :=
  { index := [exEncMeta],
    files := [("e.json.enc",
      .encrypted "k" { meta := exEncMeta, messages := [], token_stats := {} })] }

/- ------------------------------------------------------------------
   Helper lemmas
   ------------------------------------------------------------------ -/

theorem listStartsWith_self_append (p t : List Char) :
    listStartsWith p (p ++ t) = true := by
  induction p with
  | nil => rfl
  | cons a as ih => simp [listStartsWith, ih]

theorem strStartsWith_self_append (p t : String) :
    strStartsWith (p ++ t) p = true := by
  unfold strStartsWith
  rw [String.data_append]
  exact listStartsWith_self_append p.data t.data

theorem findIdxP_eq_none {α : Type} {p : α → Bool} {l : List α}
    (h : ∀ x ∈ l, p x = false) : findIdxP p l = none := by
  induction l with
  | nil => rfl
  | cons x rest ih =>
      have hx := h x (by simp)
      simp [findIdxP, hx, ih (fun y hy => h y (by simp [hy]))]

theorem countP_eq_zero_of {α : Type} {p : α → Bool} {l : List α}
    (h : ∀ x ∈ l, p x = false) : l.countP p = 0 := by
  rw [List.countP_eq_zero]
  intro a ha
  simp [h a ha]

theorem build_system_prompt_set_messages (st : EngineState) (m : List Message) :
    build_system_prompt { st with messages := m } = build_system_prompt st := rfl

/- ------------------------------------------------------------------
   Claim C4 — maybe_summarize gating
   ------------------------------------------------------------------ -/

/-- Claim C4 (amended): `maybe_summarize` returns false without
delegating unless the configured token budget is positive and either
`force` is true or autosummarize is enabled and the estimated context
tokens exceed the budget; in the remaining case it delegates to the
summarization procedure and returns its success value.  In particular,
even when `force` is true, a non-positive budget prevents delegation. -/
theorem maybe_summarize_spec (cfg : EngineConfig) (st : EngineState)
    (force delegate : Bool) :
    maybe_summarize cfg st force delegate =
      if 0 < cfg.context_token_budget ∧
          (force = true ∨ (cfg.context_autosummarize = true ∧
            cfg.context_token_budget < (estimate_context_tokens st.messages : Int)))
      then (true, delegate) else (false, false) := by
  unfold maybe_summarize
  cases force <;> cases hc : cfg.context_autosummarize <;>
    simp [hc] <;> split_ifs <;> simp_all <;> omega

/-- Claim C4 counterexample: with `force = true` and a zero token
budget the call does not delegate (first component false) and returns
false, refuting "when force is true it delegates to summarization
regardless of the budget configuration". -/
theorem maybe_summarize_force_zero_budget :
    maybe_summarize { context_token_budget := 0 } {} true true = (false, false) := by
  decide

/- ------------------------------------------------------------------
   Claim C5 — token estimation
   ------------------------------------------------------------------ -/

/-- Claim C5 (amended): `estimate_context_tokens` is the sum over the
transcript of the per-message estimate: 256 for attachment-bearing
(multimodal list) content, character length divided by 4 rounded DOWN
with minimum 1 for non-empty text, and 0 for empty or absent
content. -/
theorem estimate_context_tokens_spec (msgs : List Message) :
    estimate_context_tokens msgs = (msgs.map spec_token_estimate).sum := by
  unfold estimate_context_tokens
  congr 1
  apply List.map_congr_left
  intro m _
  cases h : m.content with
  | text s =>
      by_cases hs : s = ""
      · simp [estimate_message_tokens, spec_token_estimate, h, hs, estimate_tokens]
      · have hlen : s.length ≠ 0 := by
          cases s with
          | mk data =>
              cases data with
              | nil => simp at hs
              | cons a as => simp [String.length]
        simp [estimate_message_tokens, spec_token_estimate, h, hs, hlen,
          estimate_tokens]
  | parts ps => simp [estimate_message_tokens, spec_token_estimate, h]
  | other => simp [estimate_message_tokens, spec_token_estimate, h]

/-- Claim C5 counterexample: on `[{role: "user", content: "hello
world"}]` the estimate is `max(1, 11 // 4) = 2`, not the claimed
`ceil(11/4) = 3` (the source rounds down, not up). -/
theorem estimate_hello_world_not_three :
    estimate_context_tokens [{ role := "user", content := .text "hello world" }] = 2 ∧
    estimate_context_tokens [{ role := "user", content := .text "hello world" }] ≠ 3 := by
  constructor <;> decide

/- ------------------------------------------------------------------
   Claim C8 — summary split
   ------------------------------------------------------------------ -/

/-- Claim C8: `_split_messages_for_summary` partitions the non-system
messages with `keepLast = max(1, configured keep-count or default 6)`:
at most `keepLast` non-system messages yield an empty to-summarize
list and the whole conversation as keep; otherwise keep is exactly the
last `keepLast` non-system messages and to-summarize the remaining
prefix in order. -/
theorem split_messages_for_summary_spec (cfg : EngineConfig) (msgs : List Message)
    (conv : List Message) (k : Nat)
    (hconv : conv = msgs.filter (fun m => m.role != "system"))
    (hk : k = keepLastOf cfg) :
    split_messages_for_summary cfg msgs =
      (conv.take (conv.length - k), conv.drop (conv.length - k)) ∧
    (conv.length ≤ k → split_messages_for_summary cfg msgs = ([], conv)) ∧
    (k < conv.length →
      (split_messages_for_summary cfg msgs).2.length = k ∧
      (split_messages_for_summary cfg msgs).1.length = conv.length - k) ∧
    (split_messages_for_summary cfg msgs).1 ++
      (split_messages_for_summary cfg msgs).2 = conv ∧
    1 ≤ k ∧ (cfg.context_keep_last = 0 → k = DEFAULT_SUMMARY_KEEP) := by
  subst hk
  have hk1 : 1 ≤ keepLastOf cfg := by
    unfold keepLastOf
    have h1 : (1 : Int) ≤ max 1 (if cfg.context_keep_last = 0 then
        (DEFAULT_SUMMARY_KEEP : Int) else cfg.context_keep_last) := le_max_left _ _
    generalize hm : max (1 : Int) (if cfg.context_keep_last = 0 then
        (DEFAULT_SUMMARY_KEEP : Int) else cfg.context_keep_last) = m at h1 ⊢
    omega
  have hk6 : cfg.context_keep_last = 0 → keepLastOf cfg = DEFAULT_SUMMARY_KEEP := by
    intro h2
    unfold keepLastOf
    rw [if_pos h2]
    decide
  by_cases hle : conv.length ≤ keepLastOf cfg
  · have hz : conv.length - keepLastOf cfg = 0 := Nat.sub_eq_zero_of_le hle
    have hp : split_messages_for_summary cfg msgs = ([], conv) := by
      simp only [split_messages_for_summary]
      rw [← hconv, if_pos hle]
    rw [hp]
    exact ⟨by simp [hz], fun _ => rfl, fun h => absurd h (by omega), by simp,
      hk1, hk6⟩
  · have hp : split_messages_for_summary cfg msgs =
        (conv.take (conv.length - keepLastOf cfg),
         conv.drop (conv.length - keepLastOf cfg)) := by
      simp only [split_messages_for_summary]
      rw [← hconv, if_neg hle]
    rw [hp]
    refine ⟨rfl, fun h => absurd h (by omega), fun h => ⟨?_, ?_⟩,
      List.take_append_drop _ _, hk1, hk6⟩
    · rw [List.length_drop]
      omega
    · rw [List.length_take]
      omega

/-- Witness for C8 at a concrete transcript: four non-system messages
with keep-count 2 split into a two-message prefix to summarize and the
last two messages kept. -/
theorem split_messages_for_summary_spec_witness :
    (split_messages_for_summary { context_keep_last := 2 }
        [{ role := "user", content := .text "1" },
         { role := "assistant", content := .text "2" },
         { role := "user", content := .text "3" },
         { role := "assistant", content := .text "4" }]).2.length = 2 := by
  have h := split_messages_for_summary_spec { context_keep_last := 2 }
    [{ role := "user", content := .text "1" },
     { role := "assistant", content := .text "2" },
     { role := "user", content := .text "3" },
     { role := "assistant", content := .text "4" }]
    [{ role := "user", content := .text "1" },
     { role := "assistant", content := .text "2" },
     { role := "user", content := .text "3" },
     { role := "assistant", content := .text "4" }]
    2 (by decide) (by decide)
  exact (h.2.2.1 (by decide)).1

/- ------------------------------------------------------------------
   Claim C10 — masking frame property
   ------------------------------------------------------------------ -/

/-- Claim C10: `mask_messages` returns a list of the same length in
the same order; in each message every field other than the content is
unchanged, and the content is redacted (one substitution pass per
pattern) exactly when it is a string — non-string content, including
multimodal attachment lists, passes through unchanged. -/
theorem mask_messages_spec (subst : String → String → String)
    (patterns : List String) (msgs : List Message) :
    (mask_messages subst patterns msgs).length = msgs.length ∧
    List.Forall₂ (fun m m2 =>
      m2.role = m.role ∧ m2.images = m.images ∧
      (match m.content with
       | .text s => m2.content = .text (mask_sensitive_text subst patterns s)
       | _ => m2 = m)) msgs (mask_messages subst patterns msgs) := by
  constructor
  · simp [mask_messages]
  · induction msgs with
    | nil => simp [mask_messages]
    | cons m rest ih =>
        refine List.Forall₂.cons ?_ ih
        cases h : m.content <;> simp [h]

/- ------------------------------------------------------------------
   Claim C6 — init_conversation
   ------------------------------------------------------------------ -/

/-- Claim C6 (amended): `init_conversation` resets the rolling summary
to empty and leaves the cumulative token usage counters unchanged (it
does not reset them); the returned transcript contains exactly one
system message holding the composed prompt when that prompt is
non-empty and no message at all when it is empty. -/
theorem init_conversation_spec (st : EngineState) (model_name : String)
    (cb : Option (String → ProfileUpdate)) (prompts : Prompts) :
    let st2 := init_conversation st model_name cb prompts
    st2.summary = "" ∧
    st2.token_stats = st.token_stats ∧
    st2.messages = (if build_system_prompt st2 = "" then []
      else [{ role := "system", content := .text (build_system_prompt st2) }]) ∧
    st2.messages.length ≤ 1 := by
  intro st2
  have hmsg : ∀ (base : EngineState),
      let st3 := { base with messages :=
        (if build_system_prompt base ≠ "" then
          [({ role := "system", content := .text (build_system_prompt base) } : Message)]
        else []) }
      st3.messages = (if build_system_prompt st3 = "" then []
        else [{ role := "system", content := .text (build_system_prompt st3) }]) ∧
      st3.messages.length ≤ 1 := by
    intro base
    by_cases hb : build_system_prompt base = "" <;>
      simp [build_system_prompt_set_messages, hb]
  cases cb with
  | none => exact ⟨rfl, rfl, hmsg _⟩
  | some f => exact ⟨rfl, rfl, hmsg _⟩

/-- Claim C6 counterexample: with non-zero usage counters,
`init_conversation` returns a state whose token counters still hold
the old totals, refuting "resets the cumulative token usage counters
to zero". -/
theorem init_conversation_keeps_token_stats :
    (init_conversation
        { token_stats := { prompt_tokens := 1, completion_tokens := 1, total_tokens := 2 } }
        "demo" none []).token_stats ≠ ({} : TokenStats) := by
  decide

/- ------------------------------------------------------------------
   Store lemmas
   ------------------------------------------------------------------ -/

theorem find_meta_upsert (l : List SessionMeta) (m : SessionMeta) :
    find_meta (upsert_meta l m) m.id = some m := by
  induction l with
  | nil => simp [upsert_meta, find_meta]
  | cons item rest ih =>
      by_cases h : item.id = m.id
      · simp [upsert_meta, find_meta, h]
      · simp only [upsert_meta, h]
        simp only [find_meta, List.find?] at ih ⊢
        simp [h, ih]

theorem lookup_file_upsert (fs : List (String × FileContent)) (name : String)
    (content : FileContent) :
    lookup_file (upsert_file fs name content) name = some content := by
  induction fs with
  | nil => simp [upsert_file, lookup_file]
  | cons f rest ih =>
      by_cases h : f.1 = name
      · simp [upsert_file, lookup_file, h]
      · simp only [upsert_file, h]
        simp only [lookup_file, List.find?] at ih ⊢
        simp [h, ih]

theorem ends_with_enc_append_json (s : String) :
    ends_with_enc (s ++ ".json") = false := by
  unfold ends_with_enc
  rw [String.data_append, List.reverse_append]
  have h1 : (".json".data : List Char) = ['.', 'j', 's', 'o', 'n'] := rfl
  have h2 : (".enc".data : List Char) = ['.', 'e', 'n', 'c'] := rfl
  rw [h1, h2]
  simp [listStartsWith]

theorem preserve_created_at_path (index : List SessionMeta) (sid : String)
    (m0 : SessionMeta) : (preserve_created_at index sid m0).path = m0.path := by
  unfold preserve_created_at
  cases find_meta index sid <;> rfl

theorem preserve_created_at_encrypted (index : List SessionMeta) (sid : String)
    (m0 : SessionMeta) :
    (preserve_created_at index sid m0).encrypted = m0.encrypted := by
  unfold preserve_created_at
  cases find_meta index sid <;> rfl

theorem set_path_empty (a : SessionMeta) (h : a.path = "") :
    { a with path := "" } = a := by
  cases a
  simp_all

theorem double_set_path (a : SessionMeta) (p : String) :
    ({ ({ a with path := p } : SessionMeta) with path := "" } : SessionMeta) =
      { a with path := "" } := rfl

/- ------------------------------------------------------------------
   Claim C9 — security errors when a key is missing
   ------------------------------------------------------------------ -/

/-- Claim C9: with encryption enabled and no configured key,
`save_session` raises a security error before writing anything,
leaving the store unchanged; `load_session` of an index entry marked
encrypted whose file exists raises a security error when no key is
configured. -/
theorem encryption_requires_key (subst : String → String → String)
    (cfg : StoreConfig) (now gen_id : String) (st : Store)
    (session_id : Option String) (title model : String)
    (messages : List Message) (token_stats : TokenStats)
    (tags : List String) (summary : String) (sid : String) :
    (cfg.encryption_enabled = true → get_encryption_key cfg = none →
      save_session subst cfg now gen_id st session_id title model messages
          token_stats tags summary =
        .error (.security "Sifreleme acik ama anahtar yok") ∧
      save_session_store subst cfg now gen_id st session_id title model messages
          token_stats tags summary = st) ∧
    (∀ meta raw, find_meta st.index sid = some meta → meta.encrypted = true →
      lookup_file st.files meta.path = some raw →
      get_encryption_key cfg = none →
      load_session cfg st sid =
        .error (.security "Sifreli session icin anahtar gerekli")) := by
  constructor
  · intro henc hkey
    have hsave : save_session subst cfg now gen_id st session_id title model
        messages token_stats tags summary =
        .error (.security "Sifreleme acik ama anahtar yok") := by
      simp [save_session, henc, hkey]
    refine ⟨hsave, ?_⟩
    unfold save_session_store
    rw [hsave]
  · intro meta raw hfind hencm hlook hkey
    simp [load_session, hfind, hlook, hencm, hkey]

/-- Witness for C9: a default configuration with encryption switched
on but no key refuses a concrete save and leaves the empty store
unchanged, and loading the concrete encrypted session with no key
configured errors. -/
theorem encryption_requires_key_witness :
    (save_session idSubst { encryption_enabled := true } "now" "gid" {} none
        "T" "m" [] {} [] "" =
      .error (.security "Sifreleme acik ama anahtar yok")) ∧
    (load_session { encryption_enabled := true } exEncStore "e" =
      .error (.security "Sifreli session icin anahtar gerekli")) := by
  have h := encryption_requires_key idSubst { encryption_enabled := true }
    "now" "gid" {} none "T" "m" [] {} [] "" "e"
  have h2 := encryption_requires_key idSubst { encryption_enabled := true }
    "now" "gid" exEncStore none "T" "m" [] {} [] "" "e"
  exact ⟨(h.1 rfl (by decide)).1,
    h2.2 exEncMeta
      (.encrypted "k" { meta := exEncMeta, messages := [], token_stats := {} })
      (by decide) (by decide) (by decide) (by decide)⟩

/- ------------------------------------------------------------------
   Claim C7 — save/load round trip
   ------------------------------------------------------------------ -/

/-- Claim C7: a successful `save_session` followed by `load_session`
with the returned id yields a `SessionData` whose messages, summary
and token stats equal the saved values after masking (when enabled),
and whose meta equals the returned meta except for the `path` field,
which the stored copy carries as the empty string (the payload is
serialized before the path is assigned). -/
theorem load_after_write (cfg : StoreConfig) (st : Store) (m : SessionMeta)
    (d : SessionDataM) (fname : String) (content : FileContent)
    (hpath : m.path = fname)
    (hcontent : (m.encrypted = true ∧ ∃ key, get_encryption_key cfg = some key ∧
        content = .encrypted key d) ∨
      (m.encrypted = false ∧ ends_with_enc fname = false ∧ content = .plain d)) :
    load_session cfg
      { index := upsert_meta st.index m, files := upsert_file st.files fname content }
      m.id = .ok (some d) := by
  simp only [load_session, find_meta_upsert]
  rw [hpath]
  simp only [lookup_file_upsert]
  rcases hcontent with ⟨he, key, hkey, hc⟩ | ⟨he, hsuf, hc⟩
  · subst hc
    simp [he, hkey]
  · subst hc
    simp [he, hsuf]

theorem save_then_load_roundtrip (subst : String → String → String)
    (cfg : StoreConfig) (now gen_id : String) (st : Store)
    (session_id : Option String) (title model : String)
    (messages : List Message) (token_stats : TokenStats)
    (tags : List String) (summary : String) (meta : SessionMeta) (st2 : Store)
    (h : save_session subst cfg now gen_id st session_id title model messages
        token_stats tags summary = .ok (meta, st2)) :
    load_session cfg st2 meta.id =
      .ok (some
        { meta := { meta with path := "" },
          messages := masked_messages subst cfg messages,
          token_stats := token_stats,
          summary := masked_text subst cfg summary }) := by
  simp only [save_session] at h
  set A := preserve_created_at st.index (resolve_session_id session_id gen_id)
    (build_meta cfg now (resolve_session_id session_id gen_id)
      (masked_text subst cfg title) model (masked_messages subst cfg messages)
      token_stats tags (masked_text subst cfg summary)) with hA
  set F := session_file_name (resolve_session_id session_id gen_id)
    cfg.encryption_enabled with hF
  have hApath : A.path = "" := by
    rw [hA, preserve_created_at_path]
    rfl
  have hAenc : A.encrypted = cfg.encryption_enabled := by
    rw [hA, preserve_created_at_encrypted]
    rfl
  by_cases henc : cfg.encryption_enabled
  · rw [if_pos henc] at h
    cases hkey : get_encryption_key cfg with
    | none => rw [hkey] at h; exact absurd h (by simp)
    | some key =>
        rw [hkey] at h
        simp only [Except.ok.injEq, Prod.mk.injEq] at h
        obtain ⟨hm, hs⟩ := h
        subst hs
        rw [← hm]
        have hRHS : ({ ({ A with path := F } : SessionMeta) with path := "" } :
            SessionMeta) = A := by
          rw [double_set_path]
          exact set_path_empty A hApath
        rw [hRHS]
        refine load_after_write cfg st _ _ F _ rfl (Or.inl ⟨?_, key, hkey, rfl⟩)
        show A.encrypted = true
        rw [hAenc]
        exact henc
  · rw [if_neg henc] at h
    simp only [Except.ok.injEq, Prod.mk.injEq] at h
    obtain ⟨hm, hs⟩ := h
    subst hs
    rw [← hm]
    have hRHS : ({ ({ A with path := F } : SessionMeta) with path := "" } :
        SessionMeta) = A := by
      rw [double_set_path]
      exact set_path_empty A hApath
    rw [hRHS]
    have henc2 : cfg.encryption_enabled = false := by
      simpa using henc
    have hsuf : ends_with_enc F = false := by
      rw [hF, henc2]
      show ends_with_enc (resolve_session_id session_id gen_id ++ ".json") = false
      exact ends_with_enc_append_json _
    refine load_after_write cfg st _ _ F _ rfl (Or.inr ⟨?_, hsuf, rfl⟩)
    show A.encrypted = false
    rw [hAenc]
    exact henc2

set_option maxRecDepth 4000 in
/-- Witness for C7 (the spec's scenario): saving title "Test", model
"demo", one user message "Merhaba", tag "tag", with masking and
encryption disabled, then loading by the returned id, yields the title
"Test" and the message "Merhaba" back. -/
theorem save_then_load_roundtrip_witness :
    load_session {}
        (save_session_store idSubst {} "now" "gid" {} none "Test" "demo"
          exMerhaba { prompt_tokens := 1, completion_tokens := 1, total_tokens := 2 }
          ["tag"] "") "gid" =
      .ok (some
        { meta := { exSavedMeta with path := "" },
          messages := exMerhaba,
          token_stats := { prompt_tokens := 1, completion_tokens := 1, total_tokens := 2 },
          summary := "" }) := by
  have h := save_then_load_roundtrip idSubst {} "now" "gid" {} none "Test" "demo"
    exMerhaba { prompt_tokens := 1, completion_tokens := 1, total_tokens := 2 }
    ["tag"] "" exSavedMeta
    { index := [exSavedMeta],
      files := [("gid.json", .plain
        { meta := { exSavedMeta with path := "" },
          messages := exMerhaba,
          token_stats := { prompt_tokens := 1, completion_tokens := 1, total_tokens := 2 },
          summary := "" })] }
    rfl
  simpa [save_session_store, idSubst, masked_messages, masked_text] using h

/- ------------------------------------------------------------------
   Order and sorting lemmas for the retention policy
   ------------------------------------------------------------------ -/

theorem listLtChars_asymm : ∀ {a b : List Char},
    listLtChars a b = true → listLtChars b a = false := by
  intro a
  induction a with
  | nil =>
      intro b h
      cases b with
      | nil => exact absurd h (by decide)
      | cons y ys => rfl
  | cons x xs ih =>
      intro b h
      cases b with
      | nil => exact Bool.noConfusion (show (false : Bool) = true from h)
      | cons y ys =>
          simp only [listLtChars] at h ⊢
          by_cases h1 : x.toNat < y.toNat
          · rw [if_neg (by omega), if_pos h1]
          · by_cases h2 : y.toNat < x.toNat
            · rw [if_neg h1, if_pos h2] at h
              exact absurd h (by simp)
            · rw [if_neg h1, if_neg h2] at h
              rw [if_neg h2, if_neg h1]
              exact ih h

theorem listLtChars_neg_trans : ∀ (a : List Char), ∀ {b c : List Char},
    listLtChars a b = false → listLtChars b c = false →
    listLtChars a c = false := by
  intro a
  induction a with
  | nil =>
      intro b c h1 h2
      cases b with
      | cons y ys => exact Bool.noConfusion (show (true : Bool) = false from h1)
      | nil =>
          cases c with
          | cons z zs => exact Bool.noConfusion (show (true : Bool) = false from h2)
          | nil => rfl
  | cons x xs ih =>
      intro b c h1 h2
      cases b with
      | nil =>
          cases c with
          | cons z zs => exact Bool.noConfusion (show (true : Bool) = false from h2)
          | nil => rfl
      | cons y ys =>
          cases c with
          | nil => rfl
          | cons z zs =>
              simp only [listLtChars] at h1 h2 ⊢
              by_cases hxy : x.toNat < y.toNat
              · rw [if_pos hxy] at h1
                exact absurd h1 (by simp)
              · by_cases hyz : y.toNat < z.toNat
                · rw [if_pos hyz] at h2
                  exact absurd h2 (by simp)
                · rw [if_neg (by omega)]
                  by_cases hzx : z.toNat < x.toNat
                  · rw [if_pos hzx]
                  · rw [if_neg hzx]
                    have hxy2 : ¬ y.toNat < x.toNat := by omega
                    have hyz2 : ¬ z.toNat < y.toNat := by omega
                    rw [if_neg hxy, if_neg hxy2] at h1
                    rw [if_neg hyz, if_neg hyz2] at h2
                    exact ih h1 h2

theorem strLe_total {a b : String} (h : strLe a b = false) :
    strLe b a = true := by
  unfold strLe strLt at h ⊢
  simp only [Bool.not_eq_false'] at h
  simp [listLtChars_asymm h]

theorem strLe_trans {a b c : String} (h1 : strLe a b = true)
    (h2 : strLe b c = true) : strLe a c = true := by
  unfold strLe strLt at h1 h2 ⊢
  simp only [Bool.not_eq_true'] at h1 h2 ⊢
  exact listLtChars_neg_trans _ h2 h1

theorem insertLe_perm {α : Type} (le : α → α → Bool) (x : α) (l : List α) :
    List.Perm (insertLe le x l) (x :: l) := by
  induction l with
  | nil => exact List.Perm.refl _
  | cons y ys ih =>
      simp only [insertLe]
      by_cases h : le x y = true
      · rw [if_pos h]
      · rw [if_neg h]
        exact (ih.cons y).trans (List.Perm.swap x y ys)

theorem sortLe_perm {α : Type} (le : α → α → Bool) (l : List α) :
    List.Perm (sortLe le l) l := by
  induction l with
  | nil => exact List.Perm.refl _
  | cons x xs ih =>
      simp only [sortLe, List.foldr]
      exact (insertLe_perm le x _).trans (ih.cons x)

theorem pairwise_insertLe_upd (x : SessionMeta) (l : List SessionMeta)
    (h : List.Pairwise (fun a b => strLe b.updated_at a.updated_at = true) l) :
    List.Pairwise (fun a b => strLe b.updated_at a.updated_at = true)
      (insertLe (fun a b => strLe b.updated_at a.updated_at) x l) := by
  induction l with
  | nil => simp [insertLe]
  | cons y ys ih =>
      obtain ⟨hy, hys⟩ := List.pairwise_cons.mp h
      simp only [insertLe]
      by_cases hxy : strLe y.updated_at x.updated_at = true
      · rw [if_pos hxy]
        refine List.Pairwise.cons ?_ h
        intro z hz
        rcases List.mem_cons.mp hz with rfl | hz2
        · exact hxy
        · exact strLe_trans (hy z hz2) hxy
      · rw [if_neg hxy]
        refine List.Pairwise.cons ?_ (ih hys)
        intro z hz
        have hz2 := (insertLe_perm _ x ys).mem_iff.mp hz
        rcases List.mem_cons.mp hz2 with rfl | hz3
        · exact strLe_total (by simpa using hxy)
        · exact hy z hz3

theorem sort_by_updated_desc_pairwise (l : List SessionMeta) :
    List.Pairwise (fun a b => strLe b.updated_at a.updated_at = true)
      (sort_by_updated_desc l) := by
  induction l with
  | nil => simp [sort_by_updated_desc, sortLe]
  | cons x xs ih =>
      simp only [sort_by_updated_desc, sortLe, List.foldr] at ih ⊢
      exact pairwise_insertLe_upd x _ ih

theorem cutoff_hit_some {cutoff : Option String} {u : String}
    (h : cutoff_hit cutoff u = true) :
    ∃ c, cutoff = some c ∧ strLt u c = true := by
  cases cutoff with
  | none => exact absurd h (by simp [cutoff_hit])
  | some c => exact ⟨c, rfl, h⟩

theorem age_pass_removed (cutoff : Option String) (keep_ids : List String)
    (l : List SessionMeta) :
    ∀ s ∈ (age_pass cutoff keep_ids l).2,
      s.id ∉ keep_ids ∧ ∃ c, cutoff = some c ∧ strLt s.updated_at c = true := by
  induction l with
  | nil => simp [age_pass]
  | cons x rest ih =>
      intro s hs
      simp only [age_pass] at hs
      by_cases h1 : x.id ∈ keep_ids
      · rw [if_pos h1] at hs
        exact ih s hs
      · rw [if_neg h1] at hs
        by_cases h2 : cutoff_hit cutoff x.updated_at = true
        · rw [if_pos h2] at hs
          have hs2 : s ∈ x :: (age_pass cutoff keep_ids rest).2 := hs
          rcases List.mem_cons.mp hs2 with rfl | hs3
          · exact ⟨h1, cutoff_hit_some h2⟩
          · exact ih s hs3
        · rw [if_neg h2] at hs
          exact ih s hs

theorem age_pass_perm (cutoff : Option String) (keep_ids : List String)
    (l : List SessionMeta) :
    List.Perm ((age_pass cutoff keep_ids l).1 ++ (age_pass cutoff keep_ids l).2)
      l := by
  induction l with
  | nil => simp [age_pass]
  | cons x rest ih =>
      simp only [age_pass]
      by_cases h1 : x.id ∈ keep_ids
      · rw [if_pos h1]
        exact ih.cons x
      · rw [if_neg h1]
        by_cases h2 : cutoff_hit cutoff x.updated_at = true
        · rw [if_pos h2]
          exact List.perm_middle.trans (ih.cons x)
        · rw [if_neg h2]
          exact ih.cons x

/- ------------------------------------------------------------------
   Claim C3 — retention pruning
   ------------------------------------------------------------------ -/

/-- Claim C3 (amended): `prune_sessions` sorts the validated index by
`updated_at` descending, then applies the age cutoff (only when the
retention-days setting is positive, never removing a session whose id
is in `keep_ids`), and only afterwards applies the count cap, which
keeps the first `session_retention_count` entries of the age-surviving
list irrespective of `keep_ids` — so a `keep_ids` session beyond the
cap can still be deleted. -/
theorem prune_sessions_spec (cfg : StoreConfig) (cutoff_val : String)
    (keep_ids : List String) (st : Store) :
    let sorted := sort_by_updated_desc st.index
    let cutoff := if 0 < cfg.session_retention_days then some cutoff_val else none
    let first := age_pass cutoff keep_ids sorted
    (∀ s ∈ first.2, s.id ∉ keep_ids ∧ 0 < cfg.session_retention_days ∧
      strLt s.updated_at cutoff_val = true) ∧
    List.Perm (first.1 ++ first.2) sorted ∧
    List.Pairwise (fun a b => strLe b.updated_at a.updated_at = true) sorted ∧
    List.Perm sorted st.index ∧
    (prune_sessions cfg cutoff_val keep_ids st).index =
      (if 0 < cfg.session_retention_count ∧
          cfg.session_retention_count < (first.1.length : Int)
       then first.1.take cfg.session_retention_count.toNat else first.1) := by
  intro sorted cutoff first
  refine ⟨?_, age_pass_perm cutoff keep_ids sorted,
    sort_by_updated_desc_pairwise st.index,
    sortLe_perm _ st.index, ?_⟩
  · intro s hs
    obtain ⟨hnk, c, hc, hlt⟩ := age_pass_removed cutoff keep_ids sorted s hs
    by_cases hd : 0 < cfg.session_retention_days
    · have hcv : c = cutoff_val := by
        have : cutoff = some cutoff_val := if_pos hd
        rw [this] at hc
        exact (Option.some.injEq _ _ ▸ hc).symm
      exact ⟨hnk, hd, hcv ▸ hlt⟩
    · have : cutoff = none := if_neg hd
      rw [this] at hc
      exact absurd hc (by simp)
  · by_cases hP : 0 < cfg.session_retention_count ∧
        cfg.session_retention_count < (first.1.length : Int)
    · simp only [prune_sessions, if_pos hP]
    · simp only [prune_sessions, if_neg hP]

/-- Claim C3 counterexample: with `session_retention_count = 1`, two
sessions on disk, and `keep_ids = ["b"]` protecting the older one, the
count cap still deletes session "b" — its index entry and its file are
gone — refuting "no session whose id is in keepIds is ever deleted". -/
theorem prune_deletes_keep_ids_session :
    ("b" ∈ ["b"]) ∧ exMetaB.id = "b" ∧
    (prune_sessions { session_retention_count := 1 } "c" ["b"] exPruneStore).index
      = [exMetaA] ∧
    lookup_file (prune_sessions { session_retention_count := 1 } "c" ["b"]
      exPruneStore).files "b.json" = none := by
  refine ⟨by decide, by decide, by decide, by decide⟩

/-- Witness for C3 (the spec's retention scenario): three sessions,
none in `keep_ids`, `session_retention_count = 1`: the pruned index
holds exactly the most-recently-updated session. -/
theorem prune_sessions_spec_witness :
    (prune_sessions { session_retention_count := 1 } "x" [] exPruneStore3).index
      = [exMetaC] := by
  have h := prune_sessions_spec { session_retention_count := 1 } "x" []
    exPruneStore3
  rw [h.2.2.2.2]
  rw [if_pos (by decide)]
  decide

/- ------------------------------------------------------------------
   Transcript lemmas
   ------------------------------------------------------------------ -/

theorem findIdxP_nil {α : Type} (p : α → Bool) :
    findIdxP p ([] : List α) = none := rfl

theorem findIdxP_cons {α : Type} (p : α → Bool) (x : α) (l : List α) :
    findIdxP p (x :: l) =
      if p x then some 0 else (findIdxP p l).map (fun i => i + 1) := rfl

theorem insertAt_zero {α : Type} (l : List α) (x : α) :
    insertAt l 0 x = x :: l := by
  simp [insertAt]

theorem insertAt_one_cons {α : Type} (y : α) (l : List α) (x : α) :
    insertAt (y :: l) 1 x = y :: x :: l := by
  simp [insertAt]

theorem strStartsWith_marker_double (a b : String) :
    strStartsWith ((SUMMARY_MARKER ++ a) ++ b) SUMMARY_MARKER = true := by
  unfold strStartsWith
  rw [String.data_append, String.data_append, List.append_assoc]
  exact listStartsWith_self_append _ _

theorem is_summary_text_marker (a b : String) :
    contentStartsMarker (.text ((SUMMARY_MARKER ++ a) ++ b)) = true := by
  simp only [contentStartsMarker]
  exact strStartsWith_marker_double a b

theorem isBaseEntry_role {m : Message} (h : isBaseEntry m = true) :
    m.role = "system" := by
  simp only [isBaseEntry, Bool.and_eq_true, beq_iff_eq] at h
  exact h.1

theorem isBaseEntry_not_marker {m : Message} (h : isBaseEntry m = true) :
    is_summary_message m = false := by
  simp only [isBaseEntry, Bool.and_eq_true, Bool.not_eq_true'] at h
  exact h.2

theorem isSummaryEntry_role {m : Message} (h : isSummaryEntry m = true) :
    m.role = "system" := by
  simp only [isSummaryEntry, Bool.and_eq_true, beq_iff_eq] at h
  exact h.1

theorem isSummaryEntry_marker {m : Message} (h : isSummaryEntry m = true) :
    is_summary_message m = true := by
  simp only [isSummaryEntry, Bool.and_eq_true] at h
  exact h.2

theorem cleanTail_summary_none {rest : List Message} (h : cleanTail rest) :
    findIdxP isSummaryEntry rest = none := by
  apply findIdxP_eq_none
  intro m hm
  simp [isSummaryEntry, (h m hm).1]

theorem cleanTail_base_none {rest : List Message} (h : cleanTail rest) :
    findIdxP isBaseEntry rest = none := by
  apply findIdxP_eq_none
  intro m hm
  simp [isBaseEntry, (h m hm).1]

theorem cleanTail_marker_none {rest : List Message} (h : cleanTail rest) :
    findIdxP is_summary_message rest = none := by
  apply findIdxP_eq_none
  intro m hm
  exact (h m hm).2

theorem cleanTail_countP_zero {rest : List Message} (h : cleanTail rest) :
    rest.countP is_summary_message = 0 := by
  apply countP_eq_zero_of
  intro m hm
  exact (h m hm).2

theorem cleanTail_find_summary {rest : List Message} (h : cleanTail rest) :
    find_summary_index rest = none :=
  cleanTail_summary_none h

theorem cleanTail_find_base {rest : List Message} (h : cleanTail rest) :
    find_base_system_index rest = none :=
  cleanTail_base_none h

/- ------------------------------------------------------------------
   Claim C1 — summary message placement
   ------------------------------------------------------------------ -/

/-- Claim C1 (amended): on a transcript whose system messages form its
initial segment (at most one base and at most one summary message, in
either order, followed by non-system messages that do not carry the
marker), `update_summary_message` with a non-empty rolling summary
leaves exactly one message whose content starts with the summary
marker, positioned immediately after the base system message when one
exists and at index 0 otherwise.  (Without that shape hypothesis a
pre-existing summary message sitting after but not adjacent to the
base is updated in place and not relocated.) -/
theorem update_summary_message_spec (st : EngineState) (hs : st.summary ≠ "")
    (hwf : SysHead st.messages) :
    ((update_summary_message st).messages.countP is_summary_message = 1) ∧
    ((∃ i, find_base_system_index (update_summary_message st).messages = some i ∧
        findIdxP is_summary_message (update_summary_message st).messages =
          some (i + 1)) ∨
      (find_base_system_index (update_summary_message st).messages = none ∧
        findIdxP is_summary_message (update_summary_message st).messages =
          some 0)) := by
  obtain ⟨rest, hclean, hshape⟩ := hwf
  have hmark : is_summary_message
      ({ role := "system", content := .text (SUMMARY_MARKER ++ "\n" ++ st.summary) } : Message) = true := by
    simp [is_summary_message, is_summary_text_marker]
  rcases hshape with hsh | ⟨b, hb, hsh⟩ | ⟨s0, hs0, hsh⟩ |
    ⟨b, s0, hb, hs0, hsh⟩ | ⟨b, s0, hb, hs0, hsh⟩
  · -- transcript is rest only: fresh insert at 0
    have hres : (update_summary_message st).messages =
        ({ role := "system", content := .text (SUMMARY_MARKER ++ "\n" ++ st.summary) } : Message) :: rest := by
      simp only [update_summary_message, hsh, if_neg hs,
        cleanTail_find_summary hclean, cleanTail_find_base hclean]
      simp [insertAt_zero]
    rw [hres]
    refine ⟨?_, Or.inr ⟨?_, ?_⟩⟩
    · simp [List.countP_cons, cleanTail_countP_zero hclean, hmark]
    · simp only [find_base_system_index, findIdxP_cons]
      rw [if_neg (by simp [isBaseEntry, hmark]), cleanTail_base_none hclean]
      rfl
    · rw [findIdxP_cons, if_pos hmark]
  · -- base at head, no summary yet: insert at index 1
    have hbrole := isBaseEntry_role hb
    have hbmark := isBaseEntry_not_marker hb
    have hsumn : find_summary_index st.messages = none := by
      rw [hsh]
      simp only [find_summary_index, findIdxP_cons]
      rw [if_neg (by simp [isSummaryEntry, hbmark]),
        cleanTail_summary_none hclean]
      rfl
    have hbasei : find_base_system_index st.messages = some 0 := by
      rw [hsh]
      simp only [find_base_system_index, findIdxP_cons]
      rw [if_pos hb]
    have hres : (update_summary_message st).messages =
        b :: ({ role := "system", content := .text (SUMMARY_MARKER ++ "\n" ++ st.summary) } : Message) :: rest := by
      simp only [update_summary_message, hsumn, hbasei, if_neg hs]
      rw [hsh]
      simp [insertAt_one_cons]
    rw [hres]
    refine ⟨?_, Or.inl ⟨0, ?_, ?_⟩⟩
    · simp [List.countP_cons, cleanTail_countP_zero hclean, hbmark, hmark]
    · simp only [find_base_system_index, findIdxP_cons]
      rw [if_pos hb]
    · rw [findIdxP_cons, if_neg (by simp [hbmark]), findIdxP_cons, if_pos hmark]
      rfl
  · -- lone summary at head: updated in place at index 0
    have hrole := isSummaryEntry_role hs0
    have hsumi : find_summary_index st.messages = some 0 := by
      rw [hsh]
      simp only [find_summary_index, findIdxP_cons]
      rw [if_pos hs0]
    have hmark2 : is_summary_message
        ({ s0 with content := .text (SUMMARY_MARKER ++ "\n" ++ st.summary) } : Message) = true := by
      simp [is_summary_message, is_summary_text_marker]
    have hbase1 : find_base_system_index
        (setContentAt st.messages 0
          (.text (SUMMARY_MARKER ++ "\n" ++ st.summary))) = none := by
      rw [hsh]
      simp only [setContentAt, find_base_system_index, findIdxP_cons]
      rw [if_neg (by simp [isBaseEntry, is_summary_message, is_summary_text_marker]),
        cleanTail_base_none hclean]
      rfl
    have hres : (update_summary_message st).messages =
        ({ s0 with content := .text (SUMMARY_MARKER ++ "\n" ++ st.summary) } : Message) :: rest := by
      simp only [update_summary_message, hsumi, if_neg hs, hbase1]
      rw [hsh]
      simp [setContentAt]
    rw [hres]
    refine ⟨?_, Or.inr ⟨?_, ?_⟩⟩
    · simp [List.countP_cons, cleanTail_countP_zero hclean, hmark2]
    · simp only [find_base_system_index, findIdxP_cons]
      rw [if_neg (by simp [isBaseEntry, is_summary_message, is_summary_text_marker]),
        cleanTail_base_none hclean]
      rfl
    · rw [findIdxP_cons, if_pos hmark2]
  · -- base then summary: updated in place at index 1
    have hbrole := isBaseEntry_role hb
    have hbmark := isBaseEntry_not_marker hb
    have hrole := isSummaryEntry_role hs0
    have hsumi : find_summary_index st.messages = some 1 := by
      rw [hsh]
      simp only [find_summary_index, findIdxP_cons]
      rw [if_neg (by simp [isSummaryEntry, hbmark]), if_pos hs0]
      rfl
    have hmark2 : is_summary_message
        ({ s0 with content := .text (SUMMARY_MARKER ++ "\n" ++ st.summary) } : Message) = true := by
      simp [is_summary_message, is_summary_text_marker]
    have hbase1 : find_base_system_index
        (setContentAt st.messages 1
          (.text (SUMMARY_MARKER ++ "\n" ++ st.summary))) = some 0 := by
      rw [hsh]
      simp only [setContentAt, find_base_system_index, findIdxP_cons]
      rw [if_pos hb]
    have hres : (update_summary_message st).messages =
        b :: ({ s0 with content := .text (SUMMARY_MARKER ++ "\n" ++ st.summary) } : Message) :: rest := by
      simp only [update_summary_message, hsumi, if_neg hs, hbase1]
      rw [if_neg (by omega)]
      rw [hsh]
      simp [setContentAt]
    rw [hres]
    refine ⟨?_, Or.inl ⟨0, ?_, ?_⟩⟩
    · simp [List.countP_cons, cleanTail_countP_zero hclean, hbmark, hmark2]
    · simp only [find_base_system_index, findIdxP_cons]
      rw [if_pos hb]
    · rw [findIdxP_cons, if_neg (by simp [hbmark]), findIdxP_cons, if_pos hmark2]
      rfl
  · -- summary then base: relocated to immediately after the base
    have hbrole := isBaseEntry_role hb
    have hbmark := isBaseEntry_not_marker hb
    have hrole := isSummaryEntry_role hs0
    have hsumi : find_summary_index st.messages = some 0 := by
      rw [hsh]
      simp only [find_summary_index, findIdxP_cons]
      rw [if_pos hs0]
    have hmark2 : is_summary_message
        ({ s0 with content := .text (SUMMARY_MARKER ++ "\n" ++ st.summary) } : Message) = true := by
      simp [is_summary_message, is_summary_text_marker]
    have hbase1 : find_base_system_index
        (setContentAt st.messages 0
          (.text (SUMMARY_MARKER ++ "\n" ++ st.summary))) = some 1 := by
      rw [hsh]
      simp only [setContentAt, find_base_system_index, findIdxP_cons]
      rw [if_neg (by simp [isBaseEntry, is_summary_message, is_summary_text_marker]), if_pos hb]
      rfl
    have hres : (update_summary_message st).messages =
        b :: ({ s0 with content := .text (SUMMARY_MARKER ++ "\n" ++ st.summary) } : Message) :: rest := by
      simp only [update_summary_message, hsumi, if_neg hs, hbase1]
      rw [if_pos (by omega)]
      rw [hsh]
      simp [setContentAt, List.eraseIdx, insertAt_one_cons]
    rw [hres]
    refine ⟨?_, Or.inl ⟨0, ?_, ?_⟩⟩
    · simp [List.countP_cons, cleanTail_countP_zero hclean, hbmark, hmark2]
    · simp only [find_base_system_index, findIdxP_cons]
      rw [if_pos hb]
    · rw [findIdxP_cons, if_neg (by simp [hbmark]), findIdxP_cons, if_pos hmark2]
      rfl

/- ------------------------------------------------------------------
   Claim C2 — idempotence machinery
   ------------------------------------------------------------------ -/

theorem set_content_self (m : Message) (c : Content) (h : m.content = c) :
    ({ m with content := c } : Message) = m := by
  cases m
  simp_all

theorem uss_messages_only (st : EngineState) :
    ∃ m, update_summary_message st = { st with messages := m } := by
  simp only [update_summary_message]
  split
  · split
    · exact ⟨_, rfl⟩
    · exact ⟨st.messages, rfl⟩
  · split
    · split
      · split
        · exact ⟨_, rfl⟩
        · exact ⟨_, rfl⟩
      · exact ⟨_, rfl⟩
    · exact ⟨_, rfl⟩

theorem usm_messages_only (st : EngineState) :
    ∃ m, update_system_message st = { st with messages := m } := by
  have main : ∀ x : List Message,
      ∃ m, update_summary_message { st with messages := x } =
        { st with messages := m } := by
    intro x
    obtain ⟨m, hm⟩ := uss_messages_only { st with messages := x }
    exact ⟨m, hm⟩
  simp only [update_system_message]
  split
  · split
    · exact main _
    · exact main _
  · split
    · exact main _
    · exact main st.messages

theorem usm_build (st : EngineState) :
    build_system_prompt (update_system_message st) = build_system_prompt st := by
  obtain ⟨m, hm⟩ := usm_messages_only st
  rw [hm, build_system_prompt_set_messages]

theorem usm_summary (st : EngineState) :
    (update_system_message st).summary = st.summary := by
  obtain ⟨m, hm⟩ := usm_messages_only st
  rw [hm]

theorem uss_canonical (st1 : EngineState) (hbs : BaseStepped st1)
    (hm : strStartsWith (build_system_prompt st1) SUMMARY_MARKER = false) :
    Canonical (update_summary_message st1) := by
  obtain ⟨rest, hclean, hdisj⟩ := hbs
  rcases hdisj with ⟨hc, hmsgs⟩ | ⟨hc, B, hBrole, hBcontent, hmsgs⟩
  · -- composed prompt empty: no base message
    rcases hmsgs with hsh | ⟨s0, hs0, hsh⟩
    · by_cases hsum : st1.summary = ""
      · have hfs : find_summary_index st1.messages = none := by
          rw [hsh]
          exact cleanTail_find_summary hclean
        have hres : update_summary_message st1 = st1 := by
          simp only [update_summary_message, if_pos hsum, hfs]
        rw [hres]
        exact ⟨rest, hclean, Or.inl ⟨hc, hsum, hsh⟩⟩
      · have hfs : find_summary_index st1.messages = none := by
          rw [hsh]
          exact cleanTail_find_summary hclean
        have hfb : find_base_system_index st1.messages = none := by
          rw [hsh]
          exact cleanTail_find_base hclean
        have hres : update_summary_message st1 =
            { st1 with messages :=
              ({ role := "system", content := .text (SUMMARY_MARKER ++ "\n" ++ st1.summary) } : Message) :: rest } := by
          simp only [update_summary_message, if_neg hsum, hfs, hfb]
          rw [hsh]
          simp [insertAt_zero]
        rw [hres]
        exact ⟨rest, hclean, Or.inr (Or.inr (Or.inl ⟨hc, hsum, _, rfl, rfl, rfl⟩))⟩
    · have hfs : find_summary_index st1.messages = some 0 := by
        rw [hsh]
        simp only [find_summary_index, findIdxP_cons]
        rw [if_pos hs0]
      by_cases hsum : st1.summary = ""
      · have hres : update_summary_message st1 = { st1 with messages := rest } := by
          simp only [update_summary_message, if_pos hsum, hfs]
          rw [hsh]
          rfl
        rw [hres]
        exact ⟨rest, hclean, Or.inl ⟨hc, hsum, rfl⟩⟩
      · have hfb1 : find_base_system_index
            (setContentAt st1.messages 0
              (.text (SUMMARY_MARKER ++ "\n" ++ st1.summary))) = none := by
          rw [hsh]
          simp only [setContentAt, find_base_system_index, findIdxP_cons]
          rw [if_neg (by simp [isBaseEntry, is_summary_message, is_summary_text_marker]),
            cleanTail_base_none hclean]
          rfl
        have hres : update_summary_message st1 =
            { st1 with messages :=
              ({ s0 with content := .text (SUMMARY_MARKER ++ "\n" ++ st1.summary) } : Message) :: rest } := by
          simp only [update_summary_message, if_neg hsum, hfs, hfb1]
          rw [hsh]
          simp [setContentAt]
        rw [hres]
        exact ⟨rest, hclean, Or.inr (Or.inr (Or.inl
          ⟨hc, hsum, { s0 with content := .text (SUMMARY_MARKER ++ "\n" ++ st1.summary) },
            (isSummaryEntry_role hs0 : s0.role = "system"), rfl, rfl⟩))⟩
  · -- composed prompt non-empty: base message B present
    have hBmark : is_summary_message B = false := by
      simp [is_summary_message, hBcontent, contentStartsMarker, hm]
    have hBbase : isBaseEntry B = true := by
      simp [isBaseEntry, hBrole, hBmark]
    have hBsum : isSummaryEntry B = false := by
      simp [isSummaryEntry, hBmark]
    rcases hmsgs with hsh | ⟨s0, hs0, hsh⟩ | ⟨s0, hs0, hsh⟩
    · by_cases hsum : st1.summary = ""
      · have hfs : find_summary_index st1.messages = none := by
          rw [hsh]
          simp only [find_summary_index, findIdxP_cons]
          rw [if_neg (by simp [hBsum]), cleanTail_summary_none hclean]
          rfl
        have hres : update_summary_message st1 = st1 := by
          simp only [update_summary_message, if_pos hsum, hfs]
        rw [hres]
        exact ⟨rest, hclean, Or.inr (Or.inl ⟨hc, hsum, B, hBrole, hBcontent, hsh⟩)⟩
      · have hfs : find_summary_index st1.messages = none := by
          rw [hsh]
          simp only [find_summary_index, findIdxP_cons]
          rw [if_neg (by simp [hBsum]), cleanTail_summary_none hclean]
          rfl
        have hfb : find_base_system_index st1.messages = some 0 := by
          rw [hsh]
          simp only [find_base_system_index, findIdxP_cons]
          rw [if_pos hBbase]
        have hres : update_summary_message st1 =
            { st1 with messages := B ::
              ({ role := "system", content := .text (SUMMARY_MARKER ++ "\n" ++ st1.summary) } : Message) :: rest } := by
          simp only [update_summary_message, if_neg hsum, hfs, hfb]
          rw [hsh]
          simp [insertAt_one_cons]
        rw [hres]
        exact ⟨rest, hclean, Or.inr (Or.inr (Or.inr
          ⟨hc, hsum, B, _, hBrole, hBcontent, rfl, rfl, rfl⟩))⟩
    · have hfs : find_summary_index st1.messages = some 1 := by
        rw [hsh]
        simp only [find_summary_index, findIdxP_cons]
        rw [if_neg (by simp [hBsum]), if_pos hs0]
        rfl
      by_cases hsum : st1.summary = ""
      · have hres : update_summary_message st1 = { st1 with messages := B :: rest } := by
          simp only [update_summary_message, if_pos hsum, hfs]
          rw [hsh]
          rfl
        rw [hres]
        exact ⟨rest, hclean, Or.inr (Or.inl ⟨hc, hsum, B, hBrole, hBcontent, rfl⟩)⟩
      · have hfb1 : find_base_system_index
            (setContentAt st1.messages 1
              (.text (SUMMARY_MARKER ++ "\n" ++ st1.summary))) = some 0 := by
          rw [hsh]
          simp only [setContentAt, find_base_system_index, findIdxP_cons]
          rw [if_pos hBbase]
        have hres : update_summary_message st1 =
            { st1 with messages := B ::
              ({ s0 with content := .text (SUMMARY_MARKER ++ "\n" ++ st1.summary) } : Message) :: rest } := by
          simp only [update_summary_message, if_neg hsum, hfs, hfb1]
          rw [if_neg (by omega)]
          rw [hsh]
          simp [setContentAt]
        rw [hres]
        exact ⟨rest, hclean, Or.inr (Or.inr (Or.inr
          ⟨hc, hsum, B, { s0 with content := .text (SUMMARY_MARKER ++ "\n" ++ st1.summary) },
            hBrole, hBcontent, (isSummaryEntry_role hs0 : s0.role = "system"), rfl, rfl⟩))⟩
    · have hfs : find_summary_index st1.messages = some 0 := by
        rw [hsh]
        simp only [find_summary_index, findIdxP_cons]
        rw [if_pos hs0]
      by_cases hsum : st1.summary = ""
      · have hres : update_summary_message st1 = { st1 with messages := B :: rest } := by
          simp only [update_summary_message, if_pos hsum, hfs]
          rw [hsh]
          rfl
        rw [hres]
        exact ⟨rest, hclean, Or.inr (Or.inl ⟨hc, hsum, B, hBrole, hBcontent, rfl⟩)⟩
      · have hfb1 : find_base_system_index
            (setContentAt st1.messages 0
              (.text (SUMMARY_MARKER ++ "\n" ++ st1.summary))) = some 1 := by
          rw [hsh]
          simp only [setContentAt, find_base_system_index, findIdxP_cons]
          rw [if_neg (by simp [isBaseEntry, is_summary_message, is_summary_text_marker]),
            if_pos hBbase]
          rfl
        have hres : update_summary_message st1 =
            { st1 with messages := B ::
              ({ s0 with content := .text (SUMMARY_MARKER ++ "\n" ++ st1.summary) } : Message) :: rest } := by
          simp only [update_summary_message, if_neg hsum, hfs, hfb1]
          rw [if_pos (by omega)]
          rw [hsh]
          simp [setContentAt, List.eraseIdx, insertAt_one_cons]
        rw [hres]
        exact ⟨rest, hclean, Or.inr (Or.inr (Or.inr
          ⟨hc, hsum, B, { s0 with content := .text (SUMMARY_MARKER ++ "\n" ++ st1.summary) },
            hBrole, hBcontent, (isSummaryEntry_role hs0 : s0.role = "system"), rfl, rfl⟩))⟩

theorem usm_canonical (st : EngineState) (hwf : SysHead st.messages)
    (hm : strStartsWith (build_system_prompt st) SUMMARY_MARKER = false) :
    Canonical (update_system_message st) := by
  obtain ⟨rest, hclean, hshape⟩ := hwf
  by_cases hc : build_system_prompt st = ""
  · -- empty composed prompt: the base step removes any base message
    rcases hshape with hsh | ⟨b, hb, hsh⟩ | ⟨s0, hs0, hsh⟩ |
      ⟨b, s0, hb, hs0, hsh⟩ | ⟨b, s0, hb, hs0, hsh⟩
    · have hfb : find_base_system_index st.messages = none := by
        rw [hsh]
        exact cleanTail_find_base hclean
      have hstep : update_system_message st = update_summary_message st := by
        simp only [update_system_message, hfb]
        rw [if_neg (by simp [hc])]
      rw [hstep]
      exact uss_canonical st ⟨rest, hclean, Or.inl ⟨hc, Or.inl hsh⟩⟩ hm
    · have hfb : find_base_system_index st.messages = some 0 := by
        rw [hsh]
        simp only [find_base_system_index, findIdxP_cons]
        rw [if_pos hb]
      have hmsg : st.messages.eraseIdx 0 = rest := by
        rw [hsh]
        rfl
      have hstep : update_system_message st =
          update_summary_message { st with messages := rest } := by
        simp only [update_system_message, hfb]
        rw [if_neg (by simp [hc]), hmsg]
      rw [hstep]
      exact uss_canonical _ ⟨rest, hclean, Or.inl ⟨hc, Or.inl rfl⟩⟩ hm
    · have hfb : find_base_system_index st.messages = none := by
        rw [hsh]
        simp only [find_base_system_index, findIdxP_cons]
        rw [if_neg (by simp [isBaseEntry, isSummaryEntry_marker hs0]),
          cleanTail_base_none hclean]
        rfl
      have hstep : update_system_message st = update_summary_message st := by
        simp only [update_system_message, hfb]
        rw [if_neg (by simp [hc])]
      rw [hstep]
      exact uss_canonical st ⟨rest, hclean, Or.inl ⟨hc, Or.inr ⟨s0, hs0, hsh⟩⟩⟩ hm
    · have hfb : find_base_system_index st.messages = some 0 := by
        rw [hsh]
        simp only [find_base_system_index, findIdxP_cons]
        rw [if_pos hb]
      have hmsg : st.messages.eraseIdx 0 = s0 :: rest := by
        rw [hsh]
        rfl
      have hstep : update_system_message st =
          update_summary_message { st with messages := s0 :: rest } := by
        simp only [update_system_message, hfb]
        rw [if_neg (by simp [hc]), hmsg]
      rw [hstep]
      exact uss_canonical _ ⟨rest, hclean, Or.inl ⟨hc, Or.inr ⟨s0, hs0, rfl⟩⟩⟩ hm
    · have hfb : find_base_system_index st.messages = some 1 := by
        rw [hsh]
        simp only [find_base_system_index, findIdxP_cons]
        rw [if_neg (by simp [isBaseEntry, isSummaryEntry_marker hs0]), if_pos hb]
        rfl
      have hmsg : st.messages.eraseIdx 1 = s0 :: rest := by
        rw [hsh]
        rfl
      have hstep : update_system_message st =
          update_summary_message { st with messages := s0 :: rest } := by
        simp only [update_system_message, hfb]
        rw [if_neg (by simp [hc]), hmsg]
      rw [hstep]
      exact uss_canonical _ ⟨rest, hclean, Or.inl ⟨hc, Or.inr ⟨s0, hs0, rfl⟩⟩⟩ hm
  · -- non-empty composed prompt: the base step writes it into place
    rcases hshape with hsh | ⟨b, hb, hsh⟩ | ⟨s0, hs0, hsh⟩ |
      ⟨b, s0, hb, hs0, hsh⟩ | ⟨b, s0, hb, hs0, hsh⟩
    · have hfb : find_base_system_index st.messages = none := by
        rw [hsh]
        exact cleanTail_find_base hclean
      have hstep : update_system_message st = update_summary_message
          { st with messages :=
            ({ role := "system", content := .text (build_system_prompt st) } : Message) :: st.messages } := by
        simp only [update_system_message, hfb]
        rw [if_pos hc]
      rw [hstep, hsh]
      exact uss_canonical _ ⟨rest, hclean, Or.inr ⟨hc,
        { role := "system", content := .text (build_system_prompt st) },
        rfl, rfl, Or.inl rfl⟩⟩ hm
    · have hfb : find_base_system_index st.messages = some 0 := by
        rw [hsh]
        simp only [find_base_system_index, findIdxP_cons]
        rw [if_pos hb]
      have hmsg : setContentAt st.messages 0 (.text (build_system_prompt st)) =
          ({ b with content := .text (build_system_prompt st) } : Message) :: rest := by
        rw [hsh]
        simp [setContentAt]
      have hstep : update_system_message st = update_summary_message
          { st with messages :=
            ({ b with content := .text (build_system_prompt st) } : Message) :: rest } := by
        simp only [update_system_message, hfb]
        rw [if_pos hc, hmsg]
      rw [hstep]
      exact uss_canonical _ ⟨rest, hclean, Or.inr ⟨hc,
        { b with content := .text (build_system_prompt st) },
        (isBaseEntry_role hb : b.role = "system"), rfl, Or.inl rfl⟩⟩ hm
    · have hfb : find_base_system_index st.messages = none := by
        rw [hsh]
        simp only [find_base_system_index, findIdxP_cons]
        rw [if_neg (by simp [isBaseEntry, isSummaryEntry_marker hs0]),
          cleanTail_base_none hclean]
        rfl
      have hstep : update_system_message st = update_summary_message
          { st with messages :=
            ({ role := "system", content := .text (build_system_prompt st) } : Message) :: st.messages } := by
        simp only [update_system_message, hfb]
        rw [if_pos hc]
      rw [hstep, hsh]
      exact uss_canonical _ ⟨rest, hclean, Or.inr ⟨hc,
        { role := "system", content := .text (build_system_prompt st) },
        rfl, rfl, Or.inr (Or.inl ⟨s0, hs0, rfl⟩)⟩⟩ hm
    · have hfb : find_base_system_index st.messages = some 0 := by
        rw [hsh]
        simp only [find_base_system_index, findIdxP_cons]
        rw [if_pos hb]
      have hmsg : setContentAt st.messages 0 (.text (build_system_prompt st)) =
          ({ b with content := .text (build_system_prompt st) } : Message) :: s0 :: rest := by
        rw [hsh]
        simp [setContentAt]
      have hstep : update_system_message st = update_summary_message
          { st with messages :=
            ({ b with content := .text (build_system_prompt st) } : Message) :: s0 :: rest } := by
        simp only [update_system_message, hfb]
        rw [if_pos hc, hmsg]
      rw [hstep]
      exact uss_canonical _ ⟨rest, hclean, Or.inr ⟨hc,
        { b with content := .text (build_system_prompt st) },
        (isBaseEntry_role hb : b.role = "system"), rfl,
        Or.inr (Or.inl ⟨s0, hs0, rfl⟩)⟩⟩ hm
    · have hfb : find_base_system_index st.messages = some 1 := by
        rw [hsh]
        simp only [find_base_system_index, findIdxP_cons]
        rw [if_neg (by simp [isBaseEntry, isSummaryEntry_marker hs0]), if_pos hb]
        rfl
      have hmsg : setContentAt st.messages 1 (.text (build_system_prompt st)) =
          s0 :: ({ b with content := .text (build_system_prompt st) } : Message) :: rest := by
        rw [hsh]
        simp [setContentAt]
      have hstep : update_system_message st = update_summary_message
          { st with messages :=
            s0 :: ({ b with content := .text (build_system_prompt st) } : Message) :: rest } := by
        simp only [update_system_message, hfb]
        rw [if_pos hc, hmsg]
      rw [hstep]
      exact uss_canonical _ ⟨rest, hclean, Or.inr ⟨hc,
        { b with content := .text (build_system_prompt st) },
        (isBaseEntry_role hb : b.role = "system"), rfl,
        Or.inr (Or.inr ⟨s0, hs0, rfl⟩)⟩⟩ hm

theorem canonical_fixed (st : EngineState) (hca : Canonical st)
    (hm : strStartsWith (build_system_prompt st) SUMMARY_MARKER = false) :
    update_system_message st = st := by
  obtain ⟨rest, hclean, hdisj⟩ := hca
  rcases hdisj with ⟨hc, hsum, hsh⟩ | ⟨hc, hsum, B, hBrole, hBcontent, hsh⟩ |
    ⟨hc, hsum, S, hSrole, hScontent, hsh⟩ |
    ⟨hc, hsum, B, S, hBrole, hBcontent, hSrole, hScontent, hsh⟩
  · -- no system messages at all
    have hfb : find_base_system_index st.messages = none := by
      rw [hsh]
      exact cleanTail_find_base hclean
    have hfs : find_summary_index st.messages = none := by
      rw [hsh]
      exact cleanTail_find_summary hclean
    have hstep : update_system_message st = update_summary_message st := by
      simp only [update_system_message, hfb]
      rw [if_neg (by simp [hc])]
    rw [hstep]
    simp only [update_summary_message, if_pos hsum, hfs]
  · -- base only, already carrying the composed prompt
    have hBmark : is_summary_message B = false := by
      simp [is_summary_message, hBcontent, contentStartsMarker, hm]
    have hBbase : isBaseEntry B = true := by
      simp [isBaseEntry, hBrole, hBmark]
    have hBsum : isSummaryEntry B = false := by
      simp [isSummaryEntry, hBmark]
    have hfb : find_base_system_index st.messages = some 0 := by
      rw [hsh]
      simp only [find_base_system_index, findIdxP_cons]
      rw [if_pos hBbase]
    have hmsg : setContentAt st.messages 0 (.text (build_system_prompt st)) =
        st.messages := by
      rw [hsh]
      show ({ B with content := .text (build_system_prompt st) } : Message) :: rest
        = B :: rest
      rw [set_content_self B _ hBcontent]
    have hstep : update_system_message st = update_summary_message st := by
      simp only [update_system_message, hfb]
      rw [if_pos hc, hmsg]
    have hfs : find_summary_index st.messages = none := by
      rw [hsh]
      simp only [find_summary_index, findIdxP_cons]
      rw [if_neg (by simp [hBsum]), cleanTail_summary_none hclean]
      rfl
    rw [hstep]
    simp only [update_summary_message, if_pos hsum, hfs]
  · -- summary only, already holding the current summary text
    have hSmark : is_summary_message S = true := by
      simp [is_summary_message, hScontent, is_summary_text_marker]
    have hSbase : isBaseEntry S = false := by
      simp [isBaseEntry, hSmark]
    have hSsum : isSummaryEntry S = true := by
      simp [isSummaryEntry, hSrole, hSmark]
    have hfb : find_base_system_index st.messages = none := by
      rw [hsh]
      simp only [find_base_system_index, findIdxP_cons]
      rw [if_neg (by simp [hSbase]), cleanTail_base_none hclean]
      rfl
    have hstep : update_system_message st = update_summary_message st := by
      simp only [update_system_message, hfb]
      rw [if_neg (by simp [hc])]
    have hfs : find_summary_index st.messages = some 0 := by
      rw [hsh]
      simp only [find_summary_index, findIdxP_cons]
      rw [if_pos hSsum]
    have hset : setContentAt st.messages 0
        (.text (SUMMARY_MARKER ++ "\n" ++ st.summary)) = st.messages := by
      rw [hsh]
      show ({ S with content := .text (SUMMARY_MARKER ++ "\n" ++ st.summary) } : Message)
        :: rest = S :: rest
      rw [set_content_self S _ hScontent]
    have hfb1 : find_base_system_index (setContentAt st.messages 0
        (.text (SUMMARY_MARKER ++ "\n" ++ st.summary))) = none := by
      rw [hset]
      exact hfb
    rw [hstep]
    simp only [update_summary_message, if_neg hsum, hfs, hfb1]
    rw [hset]
  · -- base then summary, both already current
    have hBmark : is_summary_message B = false := by
      simp [is_summary_message, hBcontent, contentStartsMarker, hm]
    have hBbase : isBaseEntry B = true := by
      simp [isBaseEntry, hBrole, hBmark]
    have hBsum : isSummaryEntry B = false := by
      simp [isSummaryEntry, hBmark]
    have hSmark : is_summary_message S = true := by
      simp [is_summary_message, hScontent, is_summary_text_marker]
    have hSsum : isSummaryEntry S = true := by
      simp [isSummaryEntry, hSrole, hSmark]
    have hfb : find_base_system_index st.messages = some 0 := by
      rw [hsh]
      simp only [find_base_system_index, findIdxP_cons]
      rw [if_pos hBbase]
    have hmsg : setContentAt st.messages 0 (.text (build_system_prompt st)) =
        st.messages := by
      rw [hsh]
      show ({ B with content := .text (build_system_prompt st) } : Message)
        :: S :: rest = B :: S :: rest
      rw [set_content_self B _ hBcontent]
    have hstep : update_system_message st = update_summary_message st := by
      simp only [update_system_message, hfb]
      rw [if_pos hc, hmsg]
    have hfs : find_summary_index st.messages = some 1 := by
      rw [hsh]
      simp only [find_summary_index, findIdxP_cons]
      rw [if_neg (by simp [hBsum]), if_pos hSsum]
      rfl
    have hset : setContentAt st.messages 1
        (.text (SUMMARY_MARKER ++ "\n" ++ st.summary)) = st.messages := by
      rw [hsh]
      show B :: ({ S with content := .text (SUMMARY_MARKER ++ "\n" ++ st.summary) } : Message)
        :: rest = B :: S :: rest
      rw [set_content_self S _ hScontent]
    have hfb1 : find_base_system_index (setContentAt st.messages 1
        (.text (SUMMARY_MARKER ++ "\n" ++ st.summary))) = some 0 := by
      rw [hset]
      exact hfb
    rw [hstep]
    simp only [update_summary_message, if_neg hsum, hfs, hfb1]
    rw [if_neg (by omega)]
    rw [hset]

/- ------------------------------------------------------------------
   Claim C2 — idempotence of update_system_message
   ------------------------------------------------------------------ -/

/-- Claim C2 (amended): on a transcript whose system messages form its
initial segment (at most one base and at most one summary message, in
either order, then non-system, non-marker messages), and whose
composed system prompt does not itself start with the summary marker,
`update_system_message` is idempotent: a second call with no state
change in between leaves the state exactly as after the first call.
(Without these conditions idempotence fails; see the counterexample,
where the first call inserts the summary message before a base message
that is not at index 0 and the second call relocates it.) -/
theorem update_system_message_idempotent (st : EngineState)
    (hwf : SysHead st.messages)
    (hm : strStartsWith (build_system_prompt st) SUMMARY_MARKER = false) :
    update_system_message (update_system_message st) =
      update_system_message st := by
  have h2 : strStartsWith (build_system_prompt (update_system_message st))
      SUMMARY_MARKER = false := by
    rw [usm_build]
    exact hm
  exact canonical_fixed _ (usm_canonical st hwf hm) h2

/-- Witness for C1: on the transcript holding only the base system
message "Base" with rolling summary "ozet", the update leaves exactly
one marker message. -/
theorem update_summary_message_spec_witness :
    (update_summary_message exBaseOnly).messages.countP is_summary_message
      = 1 := by
  have h := update_summary_message_spec exBaseOnly (by decide)
    ⟨[], by simp [cleanTail],
      Or.inr (Or.inl ⟨{ role := "system", content := .text "Base" },
        by decide, rfl⟩)⟩
  exact h.1

/-- Claim C1 counterexample: on the transcript [base, user, stale
summary], with non-empty rolling summary, the summary message stays at
index 2 while the base sits at index 0 — not immediately after it —
refuting the unconditional placement claim. -/
theorem update_summary_message_not_adjacent :
    find_base_system_index (update_summary_message exSummaryAfterGap).messages
      = some 0 ∧
    findIdxP is_summary_message
      (update_summary_message exSummaryAfterGap).messages = some 2 := by
  constructor <;> decide

/-- Witness for C2: idempotence at the concrete state with an empty
transcript and base prompt "Base". -/
theorem update_system_message_idempotent_witness :
    update_system_message (update_system_message
      { base_system_prompt := "Base", summary := "ozet" }) =
    update_system_message { base_system_prompt := "Base", summary := "ozet" } := by
  exact update_system_message_idempotent
    { base_system_prompt := "Base", summary := "ozet" }
    ⟨[], by simp [cleanTail], Or.inl rfl⟩ (by decide)

/-- Claim C2 counterexample: on the transcript [user, base] (base not
at the head) with a non-empty summary, the first call inserts the
summary message at index 0 before the base, and the second call
relocates it after the base, so two consecutive calls do not agree. -/
theorem update_system_message_not_idempotent :
    update_system_message (update_system_message exBaseNotFirst) ≠
      update_system_message exBaseNotFirst := by
  decide

/-- Witness for C4: with the default budget 8192 and an empty
transcript, a non-forced call returns false without delegating. -/
theorem maybe_summarize_spec_witness :
    maybe_summarize { context_token_budget := 8192 } { messages := [] } false true
      = (false, false) := by
  rw [maybe_summarize_spec]
  decide

/-- Witness for C5: the per-message sum evaluated on the single
"hello world" user message. -/
theorem estimate_context_tokens_spec_witness :
    estimate_context_tokens [{ role := "user", content := .text "hello world" }] =
      (([{ role := "user", content := .text "hello world" }] : List Message).map
        spec_token_estimate).sum :=
  estimate_context_tokens_spec [{ role := "user", content := .text "hello world" }]

/-- Witness for C6: initializing a conversation for "demo" with no
profile callback resets the summary. -/
theorem init_conversation_spec_witness :
    (init_conversation {} "demo" none []).summary = "" :=
  (init_conversation_spec {} "demo" none []).1

/-- Witness for C10: masking the round-trip scenario's message list
preserves its length. -/
theorem mask_messages_spec_witness :
    (mask_messages idSubst [] exMerhaba).length = exMerhaba.length :=
  (mask_messages_spec idSubst [] exMerhaba).1

end OllamaCli
